import Mathlib

/-!
# Verification of the autocode generation/caching/validation control loop

This development gives a shallow embedding of the `nk_autocode` repository's
core: the `Workspace` cache (`nk_autocode/presets/assistant.py`), the
`Assistant` control loop (`_generate_from_context`, `_human_check`,
`_error_check`, `autocode`), the `OpenAIAgent` prompt builder and code-block
extraction (`nk_autocode/presets/openai_agent.py`), and, in the `ProtoV2`
namespace, the earlier loop of `prototype_v2.py` (the only implementation
carrying the `retry` policy flag).

Modelling conventions:
* Filesystem paths are lists of path components (`List String`); the cache
  directory is an association list from paths to file contents, newest entry
  first.  `mkdir` calls are not modelled (they only create directories).
* Python execution (`exec`) is an abstract parameter
  `pyExec : String → Except String PyNamespace`: running a source string
  either raises (an exception rendered to its message string) or produces a
  module namespace, an ordered list of name/value bindings.  Values are
  abstracted to the two observations the code makes of them: `callable(v)`
  and truthiness (`if v:` / `not v`).
* Observable side effects (filesystem probes/reads/writes and agent
  invocations) are accumulated in an effect trace `List Eff`.
* `verbose` only controls printing and is not modelled.
-/

namespace Autocode

/-- Abstraction of a Python runtime value as observed by the code under
verification: whether `callable(v)` holds and whether `bool(v)` holds. -/
structure PyValue where
  callable : Bool
  truthy : Bool
  deriving DecidableEq

/-- A module namespace produced by `exec`: name/value bindings in insertion
order (`ns.values()` iterates in this order). -/
abbrev PyNamespace := List (String × PyValue)

/-- `ns.get(name)`: first binding with the given name. -/
def nsGet (ns : PyNamespace) (name : String) : Option PyValue :=
  (ns.find? (fun p => p.1 = name)).map (fun p => p.2)

/-- The semantics of `exec` of a source string: raises (message) or yields a
namespace.  Passed as a parameter to every function that executes code. -/
abbrev PyExec := String → Except String PyNamespace

/-- Python truthiness of an optional string (`if id_:`): `None` and the empty
string are falsy. -/
def strTruthy : Option String → Bool
  | none => false
  | some s => !s.isEmpty

/-- Python truthiness of an optional value (`if not func:` / `if func:`). -/
def pyTruthy : Option PyValue → Bool
  | none => false
  | some v => v.truthy

/-- The cache directory contents: association list from path (component list)
to file text, newest first. -/
abbrev Cache := List (List String × String)

/-- File lookup (`is_file` / `read_text`). -/
def cacheLookup (c : Cache) (p : List String) : Option String :=
  (c.find? (fun e => e.1 = p)).map (fun e => e.2)

/-- `write_text`: newest entry shadows older ones. -/
def cacheInsert (c : Cache) (p : List String) (text : String) : Cache :=
  (p, text) :: c

/-- `unlink`. -/
def cacheErase (c : Cache) (p : List String) : Cache :=
  c.filter (fun e => !(decide (e.1 = p)))

/-- Feedback on a failed generation attempt (`framework.py`):
`HumanFeedback{previous_code, feedback}` or
`ErrorFeedback{previous_code, error_message}`. -/
inductive Feedback where
  | human (previous_code : String) (feedback : String)
  | error (previous_code : String) (error_message : String)
  deriving DecidableEq

/-- Observable side effects of a run: filesystem existence probes
(`is_file`), reads (`read_text`), writes (`write_text`), deletions
(`unlink`) and agent invocations (recording the feedback list of the
`Context` passed to `generate_code`). -/
inductive Eff where
  | probe (p : List String)
  | read (p : List String)
  | write (p : List String) (text : String)
  | unlink (p : List String)
  | agentCall (feedbacks : List Feedback)
  deriving DecidableEq

/-! ## Workspace (assistant.py lines 27-74) -/

/-- `Workspace.get_code_path_by_path`: `<cache_root>/structure/<path>/<name>.py`. -/
def get_code_path_by_path (path : List String) (name : String) : List String :=
  "structure" :: path ++ [name ++ ".py"]

/-- The identifier-keyed path `<cache_root>/ids/<id>.py`. -/
def idCachePath (id : String) : List String :=
  ["ids", id ++ ".py"]

/-- `Workspace.get_code_path_by_id`: returns the id-keyed path when that file
exists, else `None`.  The `is_file` check is recorded as a probe. -/
def get_code_path_by_id (cache : Cache) (id : String) :
    Option (List String) × List Eff :=
  let p := idCachePath id
  if (cacheLookup cache p).isSome then (some p, [Eff.probe p])
  else (none, [Eff.probe p])

/-- `Workspace.save_code_by_id`: writes `<cache_root>/ids/<id>.py`. -/
def save_code_by_id (cache : Cache) (id : String) (code : String) :
    Cache × List String × List Eff :=
  let p := idCachePath id
  (cacheInsert cache p code, p, [Eff.write p code])

/-- `Workspace.save_code_by_name`: writes `<cache_root>/structure/<name>.py`.
Note that, unlike `get_code_path_by_path`, no call-site path component is
used: this is exactly what the source does (line 55: `struct_dir /
f"{name}.py"`). -/
def save_code_by_name (cache : Cache) (name : String) (code : String) :
    Cache × List String × List Eff :=
  let p := ["structure", name ++ ".py"]
  (cacheInsert cache p code, p, [Eff.write p code])

/-- `Workspace.save_code`: dispatches on truthiness of `id_` then `name`;
raises `ValueError` when neither is given.  The `caller_path` argument is
accepted and ignored, exactly as in the source (lines 61-74). -/
def save_code (cache : Cache) (code : String) (id_ : Option String)
    (name : Option String) (callerPath : Option (List String)) :
    Except String (Cache × List Eff) :=
  if strTruthy id_ then
    let r := save_code_by_id cache (id_.getD "") code
    .ok (r.1, r.2.2)
  else if strTruthy name then
    let r := save_code_by_name cache (name.getD "") code
    .ok (r.1, r.2.2)
  else
    .error "Either 'id' or 'name' must be provided for saving code."

/-! ## Context (framework.py lines 33-99)

Fields unused by every claim under verification (`tools`, `refs`, `stack`)
are omitted; `args`/`kwargs` are taken after the `to_vars` normalisation
(each entry already a `Variable`).  Python `type` values stored in a
`Variable` or in the `extra_*_type`/`return_type` slots are abstracted to
what the prompt builder observes of them: a string payload, a type object
(observed through `__name__`), or `None`. -/

/-- A Python value sitting in a `Variable.type` slot. -/
inductive PyTypeVal where
  | str (s : String)
  | pytype (typeName : String)
  | noneV
  deriving DecidableEq

/-- `framework.Variable`: argument name, optional type tag, optional default
(the default abstracted to its `str()` rendering). -/
structure Variable where
  var : String
  type : PyTypeVal
  default : Option String
  deriving DecidableEq

/-- `framework.Context` (claim-relevant fields). `extra_args_type`,
`extra_kwargs_type` and `return_type` are abstracted to their `__name__`. -/
structure Context where
  description : Option String
  docstring : Option String
  args : Option (List Variable)
  kwargs : Option (List Variable)
  use_extra_args : Bool
  extra_args_type : Option String
  use_extra_kwargs : Bool
  extra_kwargs_type : Option String
  return_type : Option String
  name : Option String
  id : Option String
  feedbacks : List Feedback
  deriving DecidableEq

/-! ## Compilation and validation (assistant.py lines 329-361) -/

/-- `compile_code`: run the code; with no target name return the first
callable value of the namespace, otherwise `ns.get(function_name)`.  An
exception from `exec` propagates. -/
def compile_code (pyExec : PyExec) (code : String)
    (function_name : Option String) : Except String (Option PyValue) :=
  match pyExec code with
  | .error e => .error e
  | .ok ns =>
    match function_name with
    | none => .ok ((ns.find? (fun p => p.2.callable)).map (fun p => p.2))
    | some n => .ok (nsGet ns n)

/-- Rendering of `function_name` inside the "not callable" message
(`f"'{function_name}'"` renders `None` as `None`). -/
def fnameRepr : Option String → String
  | none => "None"
  | some n => n

/-- `Assistant._error_check`: compile the candidate code, verify the target
exists and is callable; any exception becomes an `ErrorFeedback`. -/
def error_check (pyExec : PyExec) (code : String)
    (function_name : Option String) : Bool × Option Feedback :=
  match compile_code pyExec code function_name with
  | .error e => (false, some (Feedback.error code e))
  | .ok none =>
    match function_name with
    | none => (false, some (Feedback.error code "No function found in the code."))
    | some n =>
      (false, some (Feedback.error code
        ("Function '" ++ n ++ "' not found in the code.")))
  | .ok (some v) =>
    if v.callable then (true, none)
    else (false, some (Feedback.error code
      ("'" ++ fnameRepr function_name ++ "' is not callable.")))

/-! ## Human review (assistant.py lines 297-327) -/

/-- One operator command at the `Accept generated code(y/n)? Or edit it(e)?`
prompt. -/
inductive HCCommand where
  | yes
  | edit
  | no (feedbackText : String)

/-- The editor bridge `Editor.edit`: `(changed, new_code)`. -/
abbrev EditorFn := String → Bool × String

/-- `Assistant._human_check`: loop over operator commands; `y` accepts the
current code, `e` hands it to the editor (keeping the original when the
editor reports no change, or when no editor is configured), `n` rejects with
a `HumanFeedback`.  `none` models the operator input stream running dry
(the real loop would block forever). -/
def human_check (editor : Option EditorFn) (code : String) :
    List HCCommand → Option (String × Bool × Option Feedback)
  | [] => none
  | HCCommand.yes :: _ => some (code, true, none)
  | HCCommand.edit :: rest =>
    (match editor with
     | none => human_check editor code rest
     | some ed =>
       let r := ed code
       human_check editor (if r.1 then r.2 else code) rest)
  | HCCommand.no txt :: _ => some (code, false, some (Feedback.human code txt))

/-! ## Cache lookup (assistant.py lines 77-103) -/

/-- The artifact kinds of `framework.py` relevant to `_generate_from_context`
and `load_cached_code`: `CachedCode(func, cache_path)` and
`CompiledCode(func, source_code, ...)`. -/
inductive Artifact where
  | cached (func : PyValue) (cache_path : List String)
  | compiled (func : Option PyValue) (source_code : String)

/-- Lines 84-92 of `load_cached_code`: resolve the cache path, identifier
first, else the call-site structural path. -/
def resolve_cache_path (cache : Cache) (caller_path : Option (List String))
    (name : Option String) (id_ : Option String) :
    Option (List String) × List Eff :=
  let step1 : Option (List String) × List Eff :=
    if strTruthy id_ then
      match get_code_path_by_id cache (id_.getD "") with
      | (some f, effs) =>
        -- `if id_file and id_file.is_file():` re-probes the same file
        if (cacheLookup cache f).isSome then (some f, effs ++ [Eff.probe f])
        else (none, effs ++ [Eff.probe f])
      | (none, effs) => (none, effs)
    else (none, [])
  match step1 with
  | (some f, effs) => (some f, effs)
  | (none, effs) =>
    if caller_path.isSome && strTruthy name then
      let sf := get_code_path_by_path (caller_path.getD []) (name.getD "")
      if (cacheLookup cache sf).isSome then (some sf, effs ++ [Eff.probe sf])
      else (none, effs ++ [Eff.probe sf])
    else (none, effs)

/-- `load_cached_code`: after resolving a path, read and execute the cached
source and extract the target callable (declared name first, else the first
callable of the namespace); an exception from `exec` propagates uncaught. -/
def load_cached_code (pyExec : PyExec) (cache : Cache)
    (caller_path : Option (List String)) (name : Option String)
    (id_ : Option String) :
    Except String (Bool × Option Artifact) × List Eff :=
  match resolve_cache_path cache caller_path name id_ with
  | (none, effs) => (.ok (false, none), effs)
  | (some p, effs) =>
    match cacheLookup cache p with
    | none => (.ok (false, none), effs ++ [Eff.read p])
    | some text =>
      match pyExec text with
      | .error e => (.error e, effs ++ [Eff.read p])
      | .ok ns =>
        let func0 : Option PyValue :=
          if strTruthy name then nsGet ns (name.getD "") else none
        let func : Option PyValue :=
          if !pyTruthy func0 then
            (ns.find? (fun q => q.2.callable)).map (fun q => q.2)
          else func0
        match func with
        | some v =>
          if v.truthy then
            (.ok (true, some (Artifact.cached v p)), effs ++ [Eff.read p])
          else (.ok (false, none), effs ++ [Eff.read p])
        | none => (.ok (false, none), effs ++ [Eff.read p])

/-! ## The generation loop (assistant.py lines 228-269) -/

/-- The ways `_generate_from_context` (or `autocode`) can terminate
abnormally: `GiveUpGenerationError`, a `ValueError`, a propagated Python
exception, or the operator input stream running dry (the real loop would
block on `input()`). -/
inductive AutoErr where
  | giveUp
  | valueError (msg : String)
  | pyError (msg : String)
  | noInput
  deriving DecidableEq

/-- The agent: `generate_code` as a function of the `Context`. -/
abbrev AgentFn := Context → String

/-- Operator input available to one iteration of the retry loop: the command
stream consumed by `_human_check` (when interactive) and the answer to the
`Regenerate code?` prompt (consulted only after a failed attempt). -/
structure IterInput where
  hcCommands : List HCCommand
  retryAnswer : Bool

/-- The `while True:` body of `_generate_from_context` (lines 245-265): call
the agent, run the human check when interactive, then the error check;
on failure ask whether to regenerate, raising `GiveUpGenerationError` when
the operator declines, else append the feedback to the context and retry.
The effect trace records each agent call with the feedback list it saw. -/
def genLoop (pyExec : PyExec) (agent : AgentFn) (editor : Option EditorFn)
    (interactive : Bool) (ctx : Context) :
    List IterInput → Except AutoErr String × List Eff
  | [] => (.error AutoErr.noInput, [])
  | inp :: rest =>
    let code0 := agent ctx
    let hc : Option (String × Bool × Option Feedback) :=
      if interactive then human_check editor code0 inp.hcCommands
      else some (code0, true, none)
    match hc with
    | none => (.error AutoErr.noInput, [Eff.agentCall ctx.feedbacks])
    | some (code1, hcOk, hcFb) =>
      let checked : Bool × Option Feedback :=
        if hcOk then error_check pyExec code1 ctx.name else (false, hcFb)
      if checked.1 then (.ok code1, [Eff.agentCall ctx.feedbacks])
      else if !inp.retryAnswer then
        (.error AutoErr.giveUp, [Eff.agentCall ctx.feedbacks])
      else
        let ctx' : Context :=
          match checked.2 with
          | some f => { ctx with feedbacks := ctx.feedbacks ++ [f] }
          | none => ctx
        let r := genLoop pyExec agent editor interactive ctx' rest
        (r.1, Eff.agentCall ctx.feedbacks :: r.2)

/-- Lines 245-269 of `_generate_from_context` after the cache check: run the
retry loop, persist the validated source with `Workspace.save_code`, compile
it and return a `CompiledCode`. -/
def generate_after_cache (pyExec : PyExec) (agent : AgentFn)
    (editor : Option EditorFn) (interactive : Bool)
    (caller_path : Option (List String)) (id_ : Option String) (ctx : Context)
    (inputs : List IterInput) (cache : Cache) (effs0 : List Eff) :
    Except AutoErr Artifact × Cache × List Eff :=
  match genLoop pyExec agent editor interactive ctx inputs with
  | (.error e, effs) => (.error e, cache, effs0 ++ effs)
  | (.ok code, effs) =>
    match save_code cache code id_ ctx.name caller_path with
    | .error m => (.error (AutoErr.valueError m), cache, effs0 ++ effs)
    | .ok (cache', effs2) =>
      match compile_code pyExec code ctx.name with
      | .error e => (.error (AutoErr.pyError e), cache', effs0 ++ effs ++ effs2)
      | .ok v =>
        (.ok (Artifact.compiled v code), cache', effs0 ++ effs ++ effs2)

/-- `Assistant._generate_from_context`: unless `regenerate`, first consult
the cache via `load_cached_code` and return a `CachedCode` on a hit; else run
the generation loop and persist the result. -/
def generate_from_context (pyExec : PyExec) (agent : AgentFn)
    (editor : Option EditorFn) (interactive : Bool) (regenerate : Bool)
    (caller_path : Option (List String)) (id_ : Option String) (ctx : Context)
    (inputs : List IterInput) (cache : Cache) :
    Except AutoErr Artifact × Cache × List Eff :=
  if regenerate then
    generate_after_cache pyExec agent editor interactive caller_path id_ ctx
      inputs cache []
  else
    match load_cached_code pyExec cache caller_path ctx.name ctx.id with
    | (.error e, effs) => (.error (AutoErr.pyError e), cache, effs)
    | (.ok (true, some art), effs) => (.ok art, cache, effs)
    | (.ok _, effs) =>
      generate_after_cache pyExec agent editor interactive caller_path id_ ctx
        inputs cache effs

/-! ## The `autocode` entry point (assistant.py lines 132-295) -/

/-- A stub/generated callable abstracted as a function on argument tuples
(argument tuples and results both drawn from `PyValue`s). -/
abbrev Stub := List PyValue → PyValue

/-- `framework.DryRunCode`. -/
structure DryRunCode where
  dry_run_fn : Stub
  description : Option String

/-- `DryRunCode.__call__` routes to the supplied stub. -/
def DryRunCode.call (c : DryRunCode) (args : List PyValue) : PyValue :=
  c.dry_run_fn args

/-- `framework.DecoratorCode`. -/
structure DecoratorCode where
  func : Stub
  function_name : String

/-- `DecoratorCode.__call__` routes to the wrapped function. -/
def DecoratorCode.call (c : DecoratorCode) (args : List PyValue) : PyValue :=
  c.func args

/-- A Python function declaration as seen by a decorator: its `__name__`,
`__doc__` and its body. -/
structure FuncDecl where
  name : String
  doc : Option String
  impl : Stub

/-- The decorator returned by the dry-run branch of `autocode` (lines
161-170): wraps the stub, keeping the decorated function's declared name. -/
def applyDryRunDecorator (stub : Stub) (func : FuncDecl) : DecoratorCode :=
  { func := fun args => stub args, function_name := func.name }

/-- `framework.ImportedCode`. -/
structure ImportedCode where
  func : PyValue
  module_name : String
  file_path : String

/-- Exceptions `__import__` may raise; only `ImportError` is caught by the
override handler. -/
inductive ImportExc where
  | importError (msg : String)
  | valueError (msg : String)
  deriving DecidableEq

/-- A Python module as observed by the override handler: its `__file__` and
attribute bindings. -/
structure PyModule where
  file : Option String
  attrs : List (String × PyValue)

/-- The import system: `__import__(mod)`. -/
abbrev ImportSystem := String → Except ImportExc PyModule

/-- Split at the last colon when one exists (preferring a split found in the
tail keeps the rightmost separator). -/
def splitLastColon : List Char → Option (List Char × List Char)
  | [] => none
  | c :: rest =>
    match splitLastColon rest with
    | some (a, b) => some (c :: a, b)
    | none => if c = ':' then some ([], rest) else none

/-- `s.rsplit(":", 1)`: split at the last colon, one element when there is
no colon. -/
def rsplitColon1 (cs : List Char) : List (List Char) :=
  match splitLastColon cs with
  | none => [cs]
  | some (a, b) => [a, b]

/-- The value returned by `Assistant.autocode`: a generated-code artifact, an
imported override, a dry-run stub, or (in decorator mode) a decorator still
waiting for the function it decorates. -/
inductive AutoResult where
  | art (a : Artifact)
  | imported (c : ImportedCode)
  | dryRun (c : DryRunCode)
  | dryRunDeco (stub : Stub)
  | genDeco (ctxBase : Context) (interactive : Bool) (regenerate : Bool)
      (caller_path : Option (List String))

/-- `Context.create` (framework.py lines 52-99) restricted to the modelled
fields; `args`/`kwargs` are taken after `to_vars`, `feedbacks` starts empty. -/
def Context.create (description : Option String) (docstring : Option String)
    (args kwargs : Option (List Variable)) (use_extra_args : Bool)
    (extra_args_type : Option String) (use_extra_kwargs : Bool)
    (extra_kwargs_type : Option String) (return_type : Option String)
    (name id : Option String) : Context :=
  { description := description, docstring := docstring, args := args,
    kwargs := kwargs, use_extra_args := use_extra_args,
    extra_args_type := extra_args_type, use_extra_kwargs := use_extra_kwargs,
    extra_kwargs_type := extra_kwargs_type, return_type := return_type,
    name := name, id := id, feedbacks := [] }

/-- Process-wide defaults held by the `Assistant` (constructor, lines
114-130).  `verbose` only affects printing and is not modelled. -/
structure AssistantCfg where
  interactive : Bool
  regenerate : Bool
  dry_run : Bool
  agent : AgentFn
  editor : Option EditorFn

/-- The per-call keyword arguments of `Assistant.autocode` that the claims
exercise.  `args`/`kwargs`/`description` etc. flow into the `Context`. -/
structure AutocodeParams where
  name : Option String
  description : Option String
  id : Option String
  args : Option (List Variable)
  kwargs : Option (List Variable)
  use_extra_args : Bool
  extra_args_type : Option String
  use_extra_kwargs : Bool
  extra_kwargs_type : Option String
  return_type : Option String
  override : Option String
  agent : Option AgentFn
  regenerate : Option Bool
  interactive : Option Bool
  decorator : Bool
  dry_run : Option Bool
  dry_run_fn : Option Stub
  caller_path : Option (List String)

/-- A default-initialised `AutocodeParams` (all keywords at their `None` /
`False` defaults), mirroring the Python signature's defaults. -/
def AutocodeParams.base : AutocodeParams :=
  { name := none, description := none, id := none, args := none,
    kwargs := none, use_extra_args := false, extra_args_type := none,
    use_extra_kwargs := false, extra_kwargs_type := none, return_type := none,
    override := none, agent := none, regenerate := none, interactive := none,
    decorator := false, dry_run := none, dry_run_fn := none,
    caller_path := none }

/-- Lines 185-226 of `autocode`: resolve per-call defaults, build the
`Context` and either return the decorator closure or run
`_generate_from_context`. -/
def autocode_generate (cfg : AssistantCfg) (pyExec : PyExec)
    (cache : Cache) (inputs : List IterInput) (p : AutocodeParams) :
    Except AutoErr AutoResult × Cache × List Eff :=
  let agent := p.agent.getD cfg.agent
  let regenerate := p.regenerate.getD cfg.regenerate
  let interactive := p.interactive.getD cfg.interactive
  let ctx := Context.create p.description none p.args p.kwargs
    p.use_extra_args p.extra_args_type p.use_extra_kwargs p.extra_kwargs_type
    p.return_type p.name p.id
  if p.decorator then
    (.ok (AutoResult.genDeco ctx interactive regenerate p.caller_path),
      cache, [])
  else
    match generate_from_context pyExec agent cfg.editor interactive regenerate
        p.caller_path p.id ctx inputs cache with
    | (.ok art, cache', effs) => (.ok (AutoResult.art art), cache', effs)
    | (.error e, cache', effs) => (.error e, cache', effs)

/-- `Assistant.autocode` (lines 132-226): dry-run short-circuit, then
override resolution (`ImportError`/`AttributeError` fall through to normal
generation, anything else propagates), then normal generation.  Line 176's
`if override:` is a Python truthiness test, so both a missing override and
the empty string skip the override block. -/
def autocode (cfg : AssistantCfg) (imp : ImportSystem) (pyExec : PyExec)
    (cache : Cache) (inputs : List IterInput) (p : AutocodeParams) :
    Except AutoErr AutoResult × Cache × List Eff :=
  let dry_run := p.dry_run.getD cfg.dry_run
  if dry_run then
    match p.dry_run_fn with
    | none =>
      (.error (AutoErr.valueError "dry_run_fn must be provided for dry run."),
        cache, [])
    | some stub =>
      if p.decorator then (.ok (AutoResult.dryRunDeco stub), cache, [])
      else
        (.ok (AutoResult.dryRun ⟨stub, p.description⟩), cache, [])
  else
    match p.override with
    | none => autocode_generate cfg pyExec cache inputs p
    | some ov =>
      if ov.isEmpty then
        -- `if override:` is false for the empty string
        autocode_generate cfg pyExec cache inputs p
      else
        match rsplitColon1 ov.data with
        | [modCs, fnCs] =>
          (match imp (String.mk modCs) with
           | .error (ImportExc.importError _) =>
             -- caught by `except (ImportError, AttributeError)`
             autocode_generate cfg pyExec cache inputs p
           | .error (ImportExc.valueError m) =>
             (.error (AutoErr.valueError m), cache, [])
           | .ok m =>
             match nsGet m.attrs (String.mk fnCs) with
             | none =>
               -- getattr raised AttributeError: caught, fall through
               autocode_generate cfg pyExec cache inputs p
             | some f =>
               (.ok (AutoResult.imported
                 ⟨f, String.mk modCs, m.file.getD ""⟩), cache, []))
        | _ =>
          (.error (AutoErr.valueError
            "not enough values to unpack (expected 2, got 1)"), cache, [])

/-! ## OpenAIAgent prompt construction (openai_agent.py lines 8-72)

Python's `str.strip()` is modelled by `pyStrip` over character lists, with
the ASCII whitespace characters the repository's strings can contain. -/

/-- ASCII whitespace as stripped by `str.strip()`. -/
def pyIsSpace (c : Char) : Bool :=
  c = ' ' || c = '\t' || c = '\n' || c = '\r' ||
    c = Char.ofNat 11 || c = Char.ofNat 12

/-- Left strip. -/
def lstripChars (cs : List Char) : List Char :=
  cs.dropWhile pyIsSpace

/-- Right strip. -/
def rstripChars (cs : List Char) : List Char :=
  (cs.reverse.dropWhile pyIsSpace).reverse

/-- `str.strip()`. -/
def pyStrip (cs : List Char) : List Char :=
  rstripChars (lstripChars cs)

/-- Accumulate one string per list element, in order (the shape of the
`for` loops `prompt += ...` in `generate_prompt`). -/
def concatMap (f : α → String) : List α → String
  | [] => ""
  | x :: xs => f x ++ concatMap f xs

/-- `type_str_from_variable` (lines 8-12): a `type` object renders as its
`__name__`, anything else (including `None`) as `str(var.type)`. -/
def type_str_from_variable (t : PyTypeVal) : String :=
  match t with
  | PyTypeVal.pytype nm => nm
  | PyTypeVal.str s => s
  | PyTypeVal.noneV => "None"

/-- The positional-argument type rendering of line 38:
`var.type if isinstance(var.type, str) else var.type.__name__ if var.type
else "Any"`. -/
def argTypeStr (t : PyTypeVal) : String :=
  match t with
  | PyTypeVal.str s => s
  | PyTypeVal.pytype nm => nm
  | PyTypeVal.noneV => "Any"

/-- One `- name: type[ = default]` parameter line. -/
def paramLine (typeRender : PyTypeVal → String) (v : Variable) : String :=
  "- " ++ v.var ++ ": " ++ typeRender v.type ++
    (match v.default with
     | some d => " = " ++ d
     | none => "") ++ "\n"

/-- Lines 35-44: positional parameters (`None` renders nothing, the empty
list renders the placeholder line). -/
def args_section (args : Option (List Variable)) : String :=
  match args with
  | none => ""
  | some l =>
    if l.isEmpty then "- No positional arguments\n"
    else concatMap (paramLine argTypeStr) l

/-- Lines 49-57: keyword parameters. -/
def kwargs_section (kwargs : Option (List Variable)) : String :=
  match kwargs with
  | none => ""
  | some l =>
    if l.isEmpty then "- No keyword arguments\n"
    else concatMap (paramLine type_str_from_variable) l

/-- An optional section rendered only when its payload is truthy. -/
def optSection (pre : String) (payload : Option String) (post : String) :
    String :=
  if strTruthy payload then pre ++ payload.getD "" ++ post else ""

/-- One feedback entry of the `### Feedbacks` block (lines 65-71): a
`HumanFeedback` contributes its previous code and its text, an
`ErrorFeedback` contributes only its error message. -/
def feedback_entry : Feedback → String
  | Feedback.human prev txt =>
    "- Previous Code:\n" ++ prev ++ "\n" ++ "- Human: " ++ txt ++ "\n"
  | Feedback.error _ err => "- Error: " ++ err ++ "\n"

/-- Lines 63-71: the feedback block, present only when feedback exists. -/
def feedback_section (fbs : List Feedback) : String :=
  if fbs.isEmpty then ""
  else "\n### Feedbacks\n" ++ concatMap feedback_entry fbs

/-- The prompt before the final `.strip()`. -/
def prompt_body (ctx : Context) : String :=
  optSection "### Function Name\n" ctx.name "\n\n" ++
  optSection "### ID: " ctx.id "\n\n" ++
  optSection "### Function Description\n" ctx.description "\n\n" ++
  optSection "### Docstring\n" ctx.docstring "\n\n" ++
  "### Parameters\n" ++
  args_section ctx.args ++
  (if ctx.use_extra_args then
    "- *args: " ++ ctx.extra_args_type.getD "Any" ++ "\n" else "") ++
  kwargs_section ctx.kwargs ++
  (if ctx.use_extra_kwargs then
    "- **kwargs: " ++ ctx.extra_kwargs_type.getD "Any" ++ "\n" else "") ++
  optSection "\n### Returns\n" ctx.return_type "\n" ++
  feedback_section ctx.feedbacks

/-- `OpenAIAgent.generate_prompt`: the assembled prompt, stripped. -/
def generate_prompt (ctx : Context) : String :=
  String.mk (pyStrip (prompt_body ctx).data)

/-! ## Code-block extraction (openai_agent.py lines 90-92)

`re.search(r"(three backticks)(?:python)?\n(.*?)(?:(three backticks)|$)",
content, re.S)` followed by `.group(1).strip()` with fallback to
`content.strip()`.  `findFence` is the operational translation of the regex
engine: scan starting offsets left to right; at a match position, try the
greedy optional `python` tag (backtracking if `\n` then fails), then grow
the lazy capture until a closing fence or `$` (end of string, or just
before a final newline, as `$` behaves without `re.MULTILINE`). -/

/-- Match the opening fence at the current offset; returns the remainder
after the consumed opener. -/
def fenceOpen (cs : List Char) : Option (List Char) :=
  if ("```".data).isPrefixOf cs then
    let rest := cs.drop 3
    if ("python".data).isPrefixOf rest then
      let rest2 := rest.drop 6
      if ("\n".data).isPrefixOf rest2 then some (rest2.drop 1)
      else if ("\n".data).isPrefixOf rest then some (rest.drop 1)
      else none
    else if ("\n".data).isPrefixOf rest then some (rest.drop 1)
    else none
  else none

/-- The lazy capture `(.*?)(?:(three backticks)|$)`: the shortest prefix
whose continuation is a closing fence, the end of the string, or the final
newline. -/
def lazyCapture : List Char → List Char
  | [] => []
  | c :: cs =>
    if ("```".data).isPrefixOf (c :: cs) then []
    else if c :: cs = ['\n'] then []
    else c :: lazyCapture cs

/-- `re.search`: try every starting offset, leftmost match wins. -/
def findFence : List Char → Option (List Char)
  | [] => none
  | c :: tl =>
    match fenceOpen (c :: tl) with
    | some rest => some (lazyCapture rest)
    | none => findFence tl

/-- Lines 90-92 of `generate_code`: the extracted, stripped group 1, or the
stripped raw response when the pattern does not match. -/
def extract_code (content : String) : String :=
  match findFence content.data with
  | some cap => String.mk (pyStrip cap)
  | none => String.mk (pyStrip content.data)

/-! ### Specification-level description of the extraction

Modelled from the spec: "extract a single code block from the model's
free-text response (fenced-block extraction with fallback to the raw
trimmed response if no fence is found)" — the first position carrying an
opening fence (three backticks, optional `python` tag, newline) starts the
block, which extends to the next three-backtick fence or the end of the
response.  Used only to state the refinement theorem for the translated
regex. -/

/-- Opening fence at the current offset, by whole-prefix comparison;
returns its length. -/
def isOpener (cs : List Char) : Option Nat :=
  if ("```python\n".data).isPrefixOf cs then some 10
  else if ("```\n".data).isPrefixOf cs then some 4
  else none

/-- Block body: everything up to the next closing fence or the end. -/
def takeUntilClose : List Char → List Char
  | [] => []
  | c :: cs =>
    if ("```".data).isPrefixOf (c :: cs) then []
    else c :: takeUntilClose cs

/-- First fenced block of the response, by scanning for the first opener. -/
def firstFencedBlockAux : List Char → Option (List Char)
  | [] => none
  | c :: tl =>
    match isOpener (c :: tl) with
    | some k => some (takeUntilClose ((c :: tl).drop k))
    | none => firstFencedBlockAux tl

/-- The spec-level contract of the extraction step. -/
def firstFencedBlockSpec (content : String) : Option String :=
  (firstFencedBlockAux content.data).map String.mk

end Autocode

namespace ProtoV2

/-!
## prototype_v2.py (`Assistant.autocode`, lines 181-303)

This earlier implementation is the one carrying the `retry` policy flag.  It
differs from `presets/assistant.py` in that the generated source is written
to the cache *before* validation, and the cache entry is removed again on
the failure paths that continue or re-raise interactively — but not on the
non-interactive `retry=False` re-raise.  Its `ErrorFeedback` carries only
the error message.  A symlink from the structural path to the identifier
file is modelled as a copy of the file contents made at creation time.
-/

/-- prototype_v2 feedback: `ErrorFeedback` has no `previous_code` field. -/
inductive PFeedback where
  | human (previous_code : String) (feedback : String)
  | error (error_message : String)
  deriving DecidableEq

/-- Effects, recording prototype_v2's agent calls. -/
inductive PEff where
  | probe (p : List String)
  | read (p : List String)
  | write (p : List String) (text : String)
  | unlink (p : List String)
  | agentCall (feedbacks : List PFeedback)
  deriving DecidableEq

/-- How a prototype_v2 `autocode` call ends: returning a callable, raising,
or running out of modelled operator input. -/
inductive POutcome where
  | value (v : Autocode.PyValue)
  | raised (msg : String)
  | noInput
  deriving DecidableEq

/-- Operator input for one loop iteration: the `Accept generated code?`
answer and the retry answer. -/
structure PIter where
  accept : Bool
  feedbackText : String
  retryAnswer : Bool

/-- `structure/<caller_dir>/<name>.py` (`f"{ctx.name}.py"` renders a missing
name as `None`). -/
def structPath (callerDir : List String) (name : Option String) :
    List String :=
  "structure" :: callerDir ++ [Autocode.fnameRepr name ++ ".py"]

/-- `ns.get(ctx.name) or next(v for v in ns.values() if callable(v))`:
the named binding when truthy, else the first callable; `none` when the
`next` call would raise `StopIteration` (whose `str` is empty). -/
def extractReturn (ns : Autocode.PyNamespace) (name : Option String) :
    Option Autocode.PyValue :=
  let v0 : Option Autocode.PyValue :=
    match name with
    | some n => Autocode.nsGet ns n
    | none => none
  if Autocode.pyTruthy v0 then v0
  else (ns.find? (fun q => q.2.callable)).map (fun q => q.2)

/-- The `while True:` loop of prototype_v2 `autocode` (lines 239-302). -/
def gen_loop (pyExec : Autocode.PyExec) (agent : List PFeedback → String)
    (interactive retry : Bool) (idOpt name : Option String)
    (callerDir : List String) (fbs : List PFeedback) (cache : Autocode.Cache) :
    List PIter → POutcome × Autocode.Cache × List PEff
  | [] => (POutcome.noInput, cache, [])
  | inp :: rest =>
    let code := agent fbs
    let sp := structPath callerDir name
    let written : Autocode.Cache × List String × List PEff :=
      if Autocode.strTruthy idOpt then
        let idp := Autocode.idCachePath (idOpt.getD "")
        let c1 := Autocode.cacheInsert cache idp code
        let c2 := Autocode.cacheInsert (Autocode.cacheErase c1 sp) sp code
        (c2, idp, [PEff.write idp code, PEff.unlink sp, PEff.write sp code])
      else
        (Autocode.cacheInsert cache sp code, sp, [PEff.write sp code])
    let cache1 := written.1
    let cache_path := written.2.1
    let effs1 := PEff.agentCall fbs :: written.2.2
    if interactive && !inp.accept then
      let cache2 := Autocode.cacheErase cache1 cache_path
      let fbs' := fbs ++ [PFeedback.human code inp.feedbackText]
      let r := gen_loop pyExec agent interactive retry idOpt name callerDir
        fbs' cache2 rest
      (r.1, r.2.1, effs1 ++ PEff.unlink cache_path :: r.2.2)
    else
      let run : Except String Autocode.PyValue :=
        match pyExec code with
        | .error e => .error e
        | .ok ns =>
          match extractReturn ns name with
          | some v => .ok v
          | none => .error ""
      match run with
      | .ok v => (POutcome.value v, cache1, effs1)
      | .error e =>
        let fbs' := fbs ++ [PFeedback.error e]
        if interactive then
          let cache2 := Autocode.cacheErase cache1 cache_path
          if inp.retryAnswer then
            let r := gen_loop pyExec agent interactive retry idOpt name
              callerDir fbs' cache2 rest
            (r.1, r.2.1, effs1 ++ PEff.unlink cache_path :: r.2.2)
          else
            (POutcome.raised e, cache2, effs1 ++ [PEff.unlink cache_path])
        else if retry then
          let cache2 := Autocode.cacheErase cache1 cache_path
          let r := gen_loop pyExec agent interactive retry idOpt name
            callerDir fbs' cache2 rest
          (r.1, r.2.1, effs1 ++ PEff.unlink cache_path :: r.2.2)
        else
          -- `raise` without unlinking: the freshly written invalid source
          -- stays in the cache
          (POutcome.raised e, cache1, effs1)

/-- prototype_v2 `Assistant.autocode` after the override short-circuit:
cache lookup (identifier first, else the structural path), returning the
cached callable on a hit — exceptions during the cached `exec` propagate —
else the generation loop. -/
def autocode (pyExec : Autocode.PyExec) (agent : List PFeedback → String)
    (interactive retry : Bool) (idOpt name : Option String)
    (callerDir : List String) (cache : Autocode.Cache) (inputs : List PIter) :
    POutcome × Autocode.Cache × List PEff :=
  let idProbe : Option (List String) × List PEff :=
    if Autocode.strTruthy idOpt then
      let idp := Autocode.idCachePath (idOpt.getD "")
      if (Autocode.cacheLookup cache idp).isSome then
        (some idp, [PEff.probe idp])
      else (none, [PEff.probe idp])
    else (none, [])
  let resolved : Option (List String) × List PEff :=
    match idProbe with
    | (some p, effs) => (some p, effs)
    | (none, effs) =>
      let sp := structPath callerDir name
      if (Autocode.cacheLookup cache sp).isSome then
        (some sp, effs ++ [PEff.probe sp])
      else (none, effs ++ [PEff.probe sp])
  match resolved with
  | (some p, effs) =>
    (match Autocode.cacheLookup cache p with
     | some text =>
       (match pyExec text with
        | .error e => (POutcome.raised e, cache, effs ++ [PEff.read p])
        | .ok ns =>
          match extractReturn ns name with
          | some v => (POutcome.value v, cache, effs ++ [PEff.read p])
          | none => (POutcome.raised "", cache, effs ++ [PEff.read p]))
     | none => (POutcome.noInput, cache, effs))
  | (none, effs) =>
    let r := gen_loop pyExec agent interactive retry idOpt name callerDir []
      cache inputs
    (r.1, r.2.1, effs ++ r.2.2)

end ProtoV2

open Autocode

/-! ## Claims -/

/-- An execution semantics that is never consulted (the runs below miss the
cache before any `exec` happens). -/
def pyExecNever : PyExec := fun _ => Except.error "unreachable"

/-- C1: the claim states that, without an explicit identifier, persistence
after validation writes to the same call-site-keyed path
`<cache_root>/structure/<call_site_relative_path>/<name>.py` that lookup
reads, so an immediately following lookup finds the file.  The code instead
writes `<cache_root>/structure/<name>.py` (dropping the call-site path that
`save_code` receives and ignores), so the very next lookup with the same
call site and name misses: saving name `f` from caller `main.py` into an
empty cache writes `structure/f.py`, while lookup probes
`structure/main.py/f.py` and returns a miss. -/
theorem C1_structural_save_misses_lookup :
    save_code ([] : Cache) "CODE" none (some "f") (some ["main.py"]) =
      Except.ok ([(["structure", "f.py"], "CODE")],
        [Eff.write ["structure", "f.py"] "CODE"])
    ∧ load_cached_code pyExecNever [(["structure", "f.py"], "CODE")]
        (some ["main.py"]) (some "f") none =
      (Except.ok (false, none), [Eff.probe ["structure", "main.py", "f.py"]])
    ∧ get_code_path_by_path ["main.py"] "f" ≠ ["structure", "f.py"] :=
  ⟨rfl, rfl, by decide⟩

/-- The execution semantics for the C2 run: the agent's only output is
syntactically invalid and `exec` raises on it. -/
def c2PyExec : PyExec := fun s =>
  if s = "def broken(:" then Except.error "invalid syntax (<string>, line 1)"
  else Except.ok []

/-- C2: with `interactive=False, retry=False` and an agent that always
returns invalid source, prototype_v2's loop does propagate the execution
error captured on the first attempt — but the claim's "performs no cache
write" part fails: the generated source is written to the structural cache
path before validation and is left there by the non-interactive,
non-retry re-raise (every other failure path unlinks it). -/
theorem C2_proto_error_propagates_but_cache_written :
    ProtoV2.autocode c2PyExec (fun _ => "def broken(:") false false none
        (some "f") ["demo"] [] [⟨true, "", true⟩] =
      (ProtoV2.POutcome.raised "invalid syntax (<string>, line 1)",
       [(["structure", "demo", "f.py"], "def broken(:")],
       [ProtoV2.PEff.probe ["structure", "demo", "f.py"],
        ProtoV2.PEff.agentCall [],
        ProtoV2.PEff.write ["structure", "demo", "f.py"] "def broken(:"])
    ∧ cacheLookup [] ["structure", "demo", "f.py"] = none
    ∧ cacheLookup [(["structure", "demo", "f.py"], "def broken(:")]
        ["structure", "demo", "f.py"] = some "def broken(:" :=
  ⟨rfl, rfl, rfl⟩

/-- C6: identifier-keyed lookup takes priority — when an identifier is given
and its file exists, `load_cached_code` resolves to the `ids/` path no matter
what the structural namespace holds; the structural path is consulted only
when no identifier-keyed file exists; `save_code` with an identifier writes
to the `ids/` path only; and the two namespaces are disjoint: no
identifier-keyed path ever equals a structural path. -/
theorem C6_id_priority_and_disjoint_namespaces :
    (∀ (cache : Cache) (cp : Option (List String)) (nm : Option String)
        (id : String), id.isEmpty = false →
        (cacheLookup cache (idCachePath id)).isSome = true →
        (resolve_cache_path cache cp nm (some id)).1 = some (idCachePath id))
    ∧ (∀ (cache : Cache) (cp : List String) (nm id : String),
        id.isEmpty = false →
        cacheLookup cache (idCachePath id) = none →
        nm.isEmpty = false →
        (cacheLookup cache (get_code_path_by_path cp nm)).isSome = true →
        (resolve_cache_path cache (some cp) (some nm) (some id)).1 =
          some (get_code_path_by_path cp nm))
    ∧ (∀ (cache : Cache) (code id : String) (nm : Option String)
        (cpth : Option (List String)), id.isEmpty = false →
        save_code cache code (some id) nm cpth =
          Except.ok (cacheInsert cache (idCachePath id) code,
            [Eff.write (idCachePath id) code]))
    ∧ (∀ (id : String) (p : List String) (nm : String),
        idCachePath id ≠ get_code_path_by_path p nm) := by
  refine ⟨?_, ?_, ?_, ?_⟩
  · intro cache cp nm id hid hsome
    simp [resolve_cache_path, get_code_path_by_id, strTruthy, hid, hsome]
  · intro cache cp nm id hid hnone hnm hs
    simp [resolve_cache_path, get_code_path_by_id, strTruthy, hid, hnone,
      hnm, hs]
  · intro cache code id nm cpth hid
    simp [save_code, save_code_by_id, strTruthy, hid, cacheInsert,
      idCachePath]
  · intro id p nm
    simp [idCachePath, get_code_path_by_path]

/-- Witness for C6 at concrete inputs: with both an identifier-keyed entry
and a structural entry present, resolution picks `ids/k.py`; with only the
structural entry present it picks `structure/m.py/f.py`; saving with an
identifier writes `ids/k.py`; and the two concrete paths differ. -/
theorem C6_id_priority_witness :
    (resolve_cache_path
        [(["ids", "k.py"], "X"), (["structure", "m.py", "f.py"], "Y")]
        (some ["m.py"]) (some "f") (some "k")).1 = some (idCachePath "k")
    ∧ (resolve_cache_path [(["structure", "m.py", "f.py"], "Y")]
        (some ["m.py"]) (some "f") (some "k")).1 =
        some (get_code_path_by_path ["m.py"] "f")
    ∧ save_code ([] : Cache) "C" (some "k") (some "f") none =
        Except.ok (cacheInsert [] (idCachePath "k") "C",
          [Eff.write (idCachePath "k") "C"])
    ∧ idCachePath "k" ≠ get_code_path_by_path ["m.py"] "f" :=
  ⟨C6_id_priority_and_disjoint_namespaces.1 _ _ _ "k" rfl rfl,
   C6_id_priority_and_disjoint_namespaces.2.1 _ ["m.py"] "f" "k" rfl rfl rfl
     rfl,
   C6_id_priority_and_disjoint_namespaces.2.2.1 [] "C" "k" (some "f") none
     rfl,
   C6_id_priority_and_disjoint_namespaces.2.2.2 "k" ["m.py"] "f"⟩

/-- A list without a colon has no last-colon split. -/
theorem splitLastColon_of_no_colon (cs : List Char)
    (h : ∀ c ∈ cs, c ≠ ':') : splitLastColon cs = none := by
  induction cs with
  | nil => rfl
  | cons c rest ih =>
    have hrest : splitLastColon rest = none :=
      ih (fun x hx => h x (List.mem_cons_of_mem c hx))
    have hc : ¬(c = ':') := h c (List.mem_cons_self c rest)
    simp [splitLastColon, hrest, hc]

/-- C7: with dry-run enabled and a stub supplied, `autocode` returns the
stub-backed artifact with the cache untouched and an empty effect trace (so
the Agent is never invoked and the cache is never probed, read or written);
every call on the returned artifact routes to the supplied stub with the
same arguments and result; and in decorator form the returned artifact
reports the decorated function's declared name. -/
theorem C7_dry_run_bypasses_agent_and_cache :
    (∀ (cfg : AssistantCfg) (imp : ImportSystem) (pyExec : PyExec)
        (cache : Cache) (inputs : List IterInput) (p : AutocodeParams)
        (stub : Stub),
        p.dry_run.getD cfg.dry_run = true → p.dry_run_fn = some stub →
        p.decorator = false →
        autocode cfg imp pyExec cache inputs p =
          (Except.ok (AutoResult.dryRun ⟨stub, p.description⟩), cache, []))
    ∧ (∀ (cfg : AssistantCfg) (imp : ImportSystem) (pyExec : PyExec)
        (cache : Cache) (inputs : List IterInput) (p : AutocodeParams)
        (stub : Stub),
        p.dry_run.getD cfg.dry_run = true → p.dry_run_fn = some stub →
        p.decorator = true →
        autocode cfg imp pyExec cache inputs p =
          (Except.ok (AutoResult.dryRunDeco stub), cache, []))
    ∧ (∀ (stub : Stub) (d : Option String) (args : List PyValue),
        DryRunCode.call ⟨stub, d⟩ args = stub args)
    ∧ (∀ (stub : Stub) (fd : FuncDecl),
        (applyDryRunDecorator stub fd).function_name = fd.name)
    ∧ (∀ (stub : Stub) (fd : FuncDecl) (args : List PyValue),
        DecoratorCode.call (applyDryRunDecorator stub fd) args = stub args) := by
  refine ⟨?_, ?_, fun _ _ _ => rfl, fun _ _ => rfl, fun _ _ _ => rfl⟩
  · intro cfg imp pyExec cache inputs p stub hdr hfn hdec
    simp [autocode, hdr, hfn, hdec]
  · intro cfg imp pyExec cache inputs p stub hdr hfn hdec
    simp [autocode, hdr, hfn, hdec]

/-- A stub for the witness runs. -/
def stubW : Stub := fun _ => ⟨false, true⟩

/-- A process-wide configuration for the witness runs. -/
def cfgW : AssistantCfg :=
  ⟨false, false, false, fun _ => "", none⟩

/-- An import system for the witness runs: only `mymod` resolves, carrying a
callable attribute `fn`. -/
def impW : ImportSystem := fun m =>
  if m = "mymod" then
    Except.ok ⟨some "/site/mymod.py", [("fn", ⟨true, true⟩)]⟩
  else Except.error (ImportExc.importError ("No module named '" ++ m ++ "'"))

/-- Witness parameters: a plain dry run supplying `stubW`. -/
def pDryW : AutocodeParams :=
  { AutocodeParams.base with
      description := some "d", dry_run := some true,
      dry_run_fn := some stubW }

/-- Witness parameters: a decorator-form dry run supplying `stubW`. -/
def pDryDecoW : AutocodeParams :=
  { AutocodeParams.base with
      decorator := true, dry_run := some true, dry_run_fn := some stubW }

/-- Witness for C7 at concrete inputs: both dry-run forms return the stub
artifact over an unchanged cache with no effects, and calls route to the
stub. -/
theorem C7_dry_run_witness :
    autocode cfgW impW pyExecNever [] [] pDryW =
      (Except.ok (AutoResult.dryRun ⟨stubW, some "d"⟩), [], [])
    ∧ autocode cfgW impW pyExecNever [] [] pDryDecoW =
      (Except.ok (AutoResult.dryRunDeco stubW), [], [])
    ∧ DryRunCode.call ⟨stubW, some "d"⟩ [] = stubW []
    ∧ (applyDryRunDecorator stubW ⟨"orig", none, stubW⟩).function_name =
        "orig"
    ∧ DecoratorCode.call (applyDryRunDecorator stubW ⟨"orig", none, stubW⟩)
        [] = stubW [] :=
  ⟨C7_dry_run_bypasses_agent_and_cache.1 cfgW impW pyExecNever [] [] pDryW
     stubW rfl rfl rfl,
   C7_dry_run_bypasses_agent_and_cache.2.1 cfgW impW pyExecNever [] []
     pDryDecoW stubW rfl rfl rfl,
   C7_dry_run_bypasses_agent_and_cache.2.2.1 stubW (some "d") [],
   C7_dry_run_bypasses_agent_and_cache.2.2.2.1 stubW ⟨"orig", none, stubW⟩,
   C7_dry_run_bypasses_agent_and_cache.2.2.2.2 stubW ⟨"orig", none, stubW⟩
     []⟩

/-- C8: a resolvable `module:function` override returns the imported
function directly, with the cache untouched and no effects (no Agent call,
no cache access); when resolution fails with a missing module
(`ImportError`) or a missing attribute (`AttributeError`), `autocode` falls
through to normal generation (`autocode_generate`) instead of failing. -/
theorem C8_override_resolution :
    (∀ (cfg : AssistantCfg) (imp : ImportSystem) (pyExec : PyExec)
        (cache : Cache) (inputs : List IterInput) (p : AutocodeParams)
        (ov : String) (m f : List Char) (mod : PyModule) (fv : PyValue),
        p.dry_run.getD cfg.dry_run = false → p.override = some ov →
        rsplitColon1 ov.data = [m, f] →
        imp (String.mk m) = Except.ok mod →
        nsGet mod.attrs (String.mk f) = some fv →
        autocode cfg imp pyExec cache inputs p =
          (Except.ok (AutoResult.imported
            ⟨fv, String.mk m, mod.file.getD ""⟩), cache, []))
    ∧ (∀ (cfg : AssistantCfg) (imp : ImportSystem) (pyExec : PyExec)
        (cache : Cache) (inputs : List IterInput) (p : AutocodeParams)
        (ov : String) (m f : List Char),
        p.dry_run.getD cfg.dry_run = false → p.override = some ov →
        rsplitColon1 ov.data = [m, f] →
        ((∃ msg, imp (String.mk m) = Except.error
            (ImportExc.importError msg))
          ∨ (∃ mod, imp (String.mk m) = Except.ok mod ∧
              nsGet mod.attrs (String.mk f) = none)) →
        autocode cfg imp pyExec cache inputs p =
          autocode_generate cfg pyExec cache inputs p) := by
  have hnonempty : ∀ (ov : String) (m f : List Char),
      rsplitColon1 ov.data = [m, f] → ov.isEmpty = false := by
    intro ov m f hsplit
    by_contra hx
    have hx' : ov.isEmpty = true := by simpa using hx
    have hov0 : ov = "" := (String.isEmpty_iff ov).mp hx'
    subst hov0
    simp [rsplitColon1, splitLastColon] at hsplit
  constructor
  · intro cfg imp pyExec cache inputs p ov m f mod fv hdr hov hsplit himp
      hattr
    simp [autocode, hdr, hov, hnonempty ov m f hsplit, hsplit, himp, hattr]
  · intro cfg imp pyExec cache inputs p ov m f hdr hov hsplit hres
    rcases hres with ⟨msg, himp⟩ | ⟨mod, himp, hattr⟩
    · simp [autocode, hdr, hov, hnonempty ov m f hsplit, hsplit, himp]
    · simp [autocode, hdr, hov, hnonempty ov m f hsplit, hsplit, himp, hattr]

/-- Witness for C8 at concrete inputs: `mymod:fn` resolves through `impW`
and returns the imported artifact; `nomod:fn` fails to import and the call
equals normal generation. -/
theorem C8_override_witness :
    autocode cfgW impW pyExecNever [] []
        { AutocodeParams.base with override := some "mymod:fn" } =
      (Except.ok (AutoResult.imported
        ⟨⟨true, true⟩, "mymod", "/site/mymod.py"⟩), [], [])
    ∧ autocode cfgW impW pyExecNever [] []
        { AutocodeParams.base with override := some "nomod:fn" } =
      autocode_generate cfgW pyExecNever [] []
        { AutocodeParams.base with override := some "nomod:fn" } :=
  ⟨C8_override_resolution.1 cfgW impW pyExecNever [] [] _ "mymod:fn"
     "mymod".data "fn".data ⟨some "/site/mymod.py", [("fn", ⟨true, true⟩)]⟩
     ⟨true, true⟩ rfl rfl rfl rfl rfl,
   C8_override_resolution.2 cfgW impW pyExecNever [] [] _ "nomod:fn"
     "nomod".data "fn".data rfl rfl rfl
     (Or.inl ⟨"No module named 'nomod'", rfl⟩)⟩

/-- C10 counterexample: the empty string contains no colon, yet with
dry-run disabled and `override=""` the operation does not raise the
unpacking `ValueError` — line 176's `if override:` truthiness test is false
for the empty string, so the call falls through to normal generation. -/
theorem C10_empty_override_falls_through :
    autocode cfgW impW pyExecNever [] []
        { AutocodeParams.base with override := some "" } =
      autocode_generate cfgW pyExecNever [] []
        { AutocodeParams.base with override := some "" }
    ∧ autocode cfgW impW pyExecNever [] []
        { AutocodeParams.base with override := some "" } ≠
      (Except.error (AutoErr.valueError
        "not enough values to unpack (expected 2, got 1)"),
        ([] : Cache), ([] : List Eff)) := by
  refine ⟨rfl, ?_⟩
  have hval : autocode cfgW impW pyExecNever [] []
      { AutocodeParams.base with override := some "" } =
      (Except.error AutoErr.noInput, ([] : Cache), ([] : List Eff)) := rfl
  rw [hval]
  intro h
  have h1 := congrArg (fun r => r.1) h
  simp at h1

/-- C10 (amended): with dry-run disabled, a NONEMPTY override string
containing no colon makes `autocode` raise the `ValueError` from unpacking
the one-element `rsplit` result — the handler catches only `ImportError`
and `AttributeError` — with the cache untouched and normal generation never
reached.  (The empty string is falsy, skips the override block entirely and
falls through to normal generation.) -/
theorem C10_override_without_colon_raises (cfg : AssistantCfg)
    (imp : ImportSystem) (pyExec : PyExec) (cache : Cache)
    (inputs : List IterInput) (p : AutocodeParams) (ov : String)
    (hdr : p.dry_run.getD cfg.dry_run = false) (hov : p.override = some ov)
    (hne : ov.isEmpty = false)
    (hnc : ∀ c ∈ ov.data, c ≠ ':') :
    autocode cfg imp pyExec cache inputs p =
      (Except.error (AutoErr.valueError
        "not enough values to unpack (expected 2, got 1)"), cache, []) := by
  have hsplit : rsplitColon1 ov.data = [ov.data] := by
    simp [rsplitColon1, splitLastColon_of_no_colon ov.data hnc]
  simp [autocode, hdr, hov, hne, hsplit]

/-- Witness for C10: the nonempty colon-free override string `modfunc`
raises the unpacking `ValueError`. -/
theorem C10_override_witness :
    autocode cfgW impW pyExecNever [] []
        { AutocodeParams.base with override := some "modfunc" } =
      (Except.error (AutoErr.valueError
        "not enough values to unpack (expected 2, got 1)"), [], []) :=
  C10_override_without_colon_raises cfgW impW pyExecNever [] [] _ "modfunc"
    rfl rfl rfl (by decide)

/-! ### Invariants of the generation loop -/

/-- `_error_check` reports success only through its single success branch,
which carries no feedback. -/
theorem error_check_fst_true {pyExec : PyExec} {code : String}
    {nm : Option String} (h : (error_check pyExec code nm).1 = true) :
    error_check pyExec code nm = (true, none) := by
  rcases hc : compile_code pyExec code nm with e | v
  · simp [error_check, hc] at h
  · rcases v with _ | v'
    · rcases nm with _ | n <;> simp [error_check, hc] at h
    · by_cases hcall : v'.callable <;> simp [error_check, hc, hcall] at h ⊢

/-- A successful `_error_check` means compilation produced a callable. -/
theorem error_check_true_inv {pyExec : PyExec} {code : String}
    {nm : Option String} (h : error_check pyExec code nm = (true, none)) :
    ∃ v, compile_code pyExec code nm = Except.ok (some v) ∧
      v.callable = true := by
  rcases hc : compile_code pyExec code nm with e | v
  · simp [error_check, hc] at h
  · rcases v with _ | v'
    · rcases nm with _ | n <;> simp [error_check, hc] at h
    · by_cases hcall : v'.callable
      · exact ⟨v', rfl, hcall⟩
      · simp [error_check, hc, hcall] at h

/-- The retry loop itself performs no cache effect at all — its trace is
made of agent calls only — and when it succeeds, the returned source passed
the error check (under the context's target name, which feedback appends
never change). -/
theorem genLoop_agent_only_and_validated (pyExec : PyExec) (agent : AgentFn)
    (editor : Option EditorFn) (interactive : Bool) :
    ∀ (inputs : List IterInput) (ctx : Context),
      (∀ e ∈ (genLoop pyExec agent editor interactive ctx inputs).2,
        ∃ fbs, e = Eff.agentCall fbs)
      ∧ (∀ c, (genLoop pyExec agent editor interactive ctx inputs).1 =
          Except.ok c → error_check pyExec c ctx.name = (true, none)) := by
  intro inputs
  induction inputs with
  | nil => intro ctx; simp [genLoop]
  | cons inp rest ih =>
    intro ctx
    have hrec : ∀ (ctx' : Context), ctx'.name = ctx.name →
        (∀ e ∈ Eff.agentCall ctx.feedbacks ::
            (genLoop pyExec agent editor interactive ctx' rest).2,
          ∃ fbs, e = Eff.agentCall fbs)
        ∧ (∀ c, (genLoop pyExec agent editor interactive ctx' rest).1 =
            Except.ok c → error_check pyExec c ctx.name = (true, none)) := by
      intro ctx' hn
      constructor
      · intro e he
        rcases List.mem_cons.mp he with rfl | he'
        · exact ⟨ctx.feedbacks, rfl⟩
        · exact (ih ctx').1 e he'
      · intro c hc
        have := (ih ctx').2 c hc
        rwa [hn] at this
    simp only [genLoop]
    rcases hhc : (if interactive then human_check editor (agent ctx)
        inp.hcCommands else some (agent ctx, true, none)) with
      _ | ⟨c1, hcOk, hcFb⟩
    · simp
    · simp only []
      cases hcOk with
      | true =>
        rcases hec : error_check pyExec c1 ctx.name with ⟨b, fb⟩
        cases b with
        | true =>
          simp only [hec, if_true, ite_true]
          constructor
          · intro e he
            simp at he
            exact ⟨ctx.feedbacks, he⟩
          · intro c hc
            simp at hc
            subst hc
            exact error_check_fst_true (by rw [hec])
        | false =>
          rcases hr : inp.retryAnswer with _ | _
          · simp only [hec, hr, if_true, ite_true, Bool.not_false, ite_false]
            simp
          · simp only [hec, hr, if_true, ite_true, Bool.not_true, ite_false]
            simp only [Bool.false_eq_true, if_false]
            rcases fb with _ | f
            · exact hrec ctx rfl
            · exact hrec { ctx with feedbacks := ctx.feedbacks ++ [f] } rfl
      | false =>
        rcases hr : inp.retryAnswer with _ | _
        · simp only [if_false, hr, Bool.not_false, ite_false, ite_true]
          simp
        · simp only [if_false, hr, Bool.not_true, ite_false]
          simp only [Bool.false_eq_true, if_false]
          rcases hcFb with _ | f
          · exact hrec ctx rfl
          · exact hrec { ctx with feedbacks := ctx.feedbacks ++ [f] } rfl

/-- Cache-path resolution only probes the filesystem. -/
theorem resolve_effs_probe (cache : Cache) (cp : Option (List String))
    (nm id_ : Option String) :
    ∀ e ∈ (resolve_cache_path cache cp nm id_).2, ∃ p, e = Eff.probe p := by
  intro e he
  simp only [resolve_cache_path, get_code_path_by_id] at he
  by_cases hid : strTruthy id_ = true <;> simp only [hid] at he
  · by_cases h1 : (cacheLookup cache (idCachePath (id_.getD ""))).isSome =
        true <;> simp only [h1, if_true, if_false] at he
    · simp at he
      rcases he with rfl | rfl <;> exact ⟨_, rfl⟩
    · by_cases h3 : (cp.isSome && strTruthy nm) = true <;>
        simp only [h3, if_true, if_false] at he
      · by_cases h4 : (cacheLookup cache
            (get_code_path_by_path (cp.getD []) (nm.getD ""))).isSome =
            true <;> simp only [h4, if_true, if_false] at he <;>
          · simp at he
            rcases he with rfl | rfl <;> exact ⟨_, rfl⟩
      · simp at he
        subst he
        exact ⟨_, rfl⟩
  · by_cases h3 : (cp.isSome && strTruthy nm) = true <;>
      simp only [h3, if_true, if_false] at he
    · by_cases h4 : (cacheLookup cache
          (get_code_path_by_path (cp.getD []) (nm.getD ""))).isSome =
          true <;> simp only [h4, if_true, if_false] at he <;>
        · simp at he
          subst he
          exact ⟨_, rfl⟩
    · simp at he

/-- Cache lookup only probes and reads; it never writes. -/
theorem load_effs_no_write (pyExec : PyExec) (cache : Cache)
    (cp : Option (List String)) (nm id_ : Option String) :
    ∀ e ∈ (load_cached_code pyExec cache cp nm id_).2,
      (∃ p, e = Eff.probe p) ∨ (∃ p, e = Eff.read p) := by
  intro e he
  have hres := resolve_effs_probe cache cp nm id_
  rcases hr : resolve_cache_path cache cp nm id_ with ⟨_ | p, effs⟩ <;>
    have heffs : ∀ x ∈ effs, ∃ q, x = Eff.probe q := fun x hx =>
      hres x (by rw [hr]; exact hx) <;>
    simp only [load_cached_code, hr] at he
  · exact Or.inl (heffs e (by simpa using he))
  · have fin : e ∈ effs ++ [Eff.read p] →
        (∃ q, e = Eff.probe q) ∨ ∃ q, e = Eff.read q := by
      intro hp
      rcases List.mem_append.mp hp with h1 | h1
      · exact Or.inl (heffs e h1)
      · simp at h1; subst h1; exact Or.inr ⟨p, rfl⟩
    rcases hl : cacheLookup cache p with _ | text <;> simp only [hl] at he
    · exact fin (by simpa using he)
    · rcases hx : pyExec text with err | ns <;> simp only [hx] at he
      · exact fin (by simpa using he)
      · split at he
        · split at he <;> exact fin (by simpa using he)
        · exact fin (by simpa using he)

/-- A successful cache hit always returns a `CachedCode` artifact. -/
theorem load_hit_is_cached (pyExec : PyExec) (cache : Cache)
    (cp : Option (List String)) (nm id_ : Option String)
    {art : Artifact} {effs : List Eff}
    (h : load_cached_code pyExec cache cp nm id_ =
      (Except.ok (true, some art), effs)) :
    ∃ w p, art = Artifact.cached w p := by
  rcases hr : resolve_cache_path cache cp nm id_ with ⟨_ | p, reffs⟩ <;>
    simp only [load_cached_code, hr] at h
  · simp at h
  · rcases hl : cacheLookup cache p with _ | text <;> simp only [hl] at h
    · simp at h
    · rcases hx : pyExec text with err | ns <;> simp only [hx] at h
      · simp at h
      · split at h
        · rename_i v heqv
          split at h
          · simp at h
            exact ⟨v, p, h.1.symm⟩
          · simp at h
        · simp at h

/-- After the cache check: a failing run leaves the cache exactly as it was
and performs no write, and a `CompiledCode` success carries source that
passed the error check. -/
theorem gac_spec (pyExec : PyExec) (agent : AgentFn) (editor : Option EditorFn)
    (interactive : Bool) (cp : Option (List String)) (id_ : Option String)
    (ctx : Context) (inputs : List IterInput) (cache : Cache)
    (effs0 : List Eff) (h0 : ∀ e ∈ effs0, ∀ p t, e ≠ Eff.write p t) :
    (∀ err cacheF effs,
        generate_after_cache pyExec agent editor interactive cp id_ ctx
          inputs cache effs0 = (Except.error err, cacheF, effs) →
        cacheF = cache ∧ ∀ p t, Eff.write p t ∉ effs)
    ∧ (∀ v c cacheF effs,
        generate_after_cache pyExec agent editor interactive cp id_ ctx
          inputs cache effs0 = (Except.ok (Artifact.compiled v c), cacheF,
            effs) →
        error_check pyExec c ctx.name = (true, none)) := by
  have hloopspec := genLoop_agent_only_and_validated pyExec agent editor
    interactive inputs ctx
  rcases hloop : genLoop pyExec agent editor interactive ctx inputs with
    ⟨lr, leffs⟩
  have hleffs : ∀ e ∈ leffs, ∃ fbs, e = Eff.agentCall fbs := by
    intro e he
    exact hloopspec.1 e (by rw [hloop]; exact he)
  have hnw : ∀ e ∈ effs0 ++ leffs, ∀ p t, e ≠ Eff.write p t := by
    intro e he p t
    rcases List.mem_append.mp he with h1 | h1
    · exact h0 e h1 p t
    · rcases hleffs e h1 with ⟨fbs, rfl⟩
      simp
  rcases lr with eo | code
  · constructor
    · intro err cacheF effs heq
      simp only [generate_after_cache, hloop] at heq
      obtain ⟨h1, h2, h3⟩ : (Except.error eo : Except AutoErr Artifact) =
          Except.error err ∧ cache = cacheF ∧ effs0 ++ leffs = effs := by
        simpa [Prod.ext_iff] using heq
      refine ⟨h2.symm, ?_⟩
      intro p t hmem
      rw [← h3] at hmem
      exact hnw _ hmem p t rfl
    · intro v c cacheF effs heq
      simp only [generate_after_cache, hloop] at heq
      simp at heq
  · have hec : error_check pyExec code ctx.name = (true, none) :=
      hloopspec.2 code (by rw [hloop])
    rcases error_check_true_inv hec with ⟨v0, hcomp, hcall⟩
    rcases hsave : save_code cache code id_ ctx.name cp with m | ⟨cache', effs2⟩
    · constructor
      · intro err cacheF effs heq
        simp only [generate_after_cache, hloop, hsave] at heq
        obtain ⟨h1, h2, h3⟩ : (Except.error (AutoErr.valueError m) :
            Except AutoErr Artifact) = Except.error err ∧ cache = cacheF ∧
            effs0 ++ leffs = effs := by
          simpa [Prod.ext_iff] using heq
        refine ⟨h2.symm, ?_⟩
        intro p t hmem
        rw [← h3] at hmem
        exact hnw _ hmem p t rfl
      · intro v c cacheF effs heq
        simp only [generate_after_cache, hloop, hsave] at heq
        simp at heq
    · constructor
      · intro err cacheF effs heq
        simp only [generate_after_cache, hloop, hsave, hcomp] at heq
        simp at heq
      · intro v c cacheF effs heq
        simp only [generate_after_cache, hloop, hsave, hcomp] at heq
        obtain ⟨h1, h2, h3⟩ : Artifact.compiled (some v0) code =
            Artifact.compiled v c ∧ cache' = cacheF ∧
            effs0 ++ leffs ++ effs2 = effs := by
          simpa [Prod.ext_iff] using heq
        obtain ⟨hv, hcode⟩ : some v0 = v ∧ code = c := by
          cases h1
          exact ⟨rfl, rfl⟩
        rw [← hcode]
        exact hec

/-- C5: across the whole `_generate_from_context` operation, persistence
happens only after an attempt passes validation.  Whenever the operation
fails — the operator gives up, the loop's input runs dry, a `ValueError`
or an exception propagates — the cache is returned unchanged and the
effect trace holds no write; and whenever it returns a freshly compiled
artifact, that artifact's source passed `_error_check` (under the
context's target name, after human acceptance when interactive). -/
theorem C5_persist_only_after_validation (pyExec : PyExec) (agent : AgentFn)
    (editor : Option EditorFn) (interactive regenerate : Bool)
    (cp : Option (List String)) (id_ : Option String) (ctx : Context)
    (inputs : List IterInput) (cache : Cache) :
    (∀ err cacheF effs,
        generate_from_context pyExec agent editor interactive regenerate cp
          id_ ctx inputs cache = (Except.error err, cacheF, effs) →
        cacheF = cache ∧ ∀ p t, Eff.write p t ∉ effs)
    ∧ (∀ v c cacheF effs,
        generate_from_context pyExec agent editor interactive regenerate cp
          id_ ctx inputs cache = (Except.ok (Artifact.compiled v c), cacheF,
            effs) →
        error_check pyExec c ctx.name = (true, none)) := by
  cases regenerate with
  | true =>
    have := gac_spec pyExec agent editor interactive cp id_ ctx inputs cache
      [] (by simp)
    constructor
    · intro err cacheF effs heq
      exact this.1 err cacheF effs (by simpa [generate_from_context] using heq)
    · intro v c cacheF effs heq
      exact this.2 v c cacheF effs (by simpa [generate_from_context] using heq)
  | false =>
    have hlnw := load_effs_no_write pyExec cache cp ctx.name ctx.id
    rcases hload : load_cached_code pyExec cache cp ctx.name ctx.id with
      ⟨lres, leffs⟩
    have hle : ∀ e ∈ leffs, ∀ p t, e ≠ Eff.write p t := by
      intro e he p t
      rcases hlnw e (by rw [hload]; exact he) with ⟨q, rfl⟩ | ⟨q, rfl⟩ <;> simp
    rcases lres with eo | ⟨b, oart⟩
    · constructor
      · intro err cacheF effs heq
        simp only [generate_from_context, hload] at heq
        obtain ⟨h1, h2, h3⟩ : (Except.error (AutoErr.pyError eo) :
            Except AutoErr Artifact) = Except.error err ∧ cache = cacheF ∧
            leffs = effs := by
          simpa [Prod.ext_iff] using heq
        refine ⟨h2.symm, ?_⟩
        intro p t hmem
        rw [← h3] at hmem
        exact hle _ hmem p t rfl
      · intro v c cacheF effs heq
        simp only [generate_from_context, hload] at heq
        simp at heq
    · rcases b with _ | _
      · -- miss with success flag false: fall through to generation
        have := gac_spec pyExec agent editor interactive cp id_ ctx inputs
          cache leffs hle
        constructor
        · intro err cacheF effs heq
          refine this.1 err cacheF effs ?_
          simpa [generate_from_context, hload] using heq
        · intro v c cacheF effs heq
          refine this.2 v c cacheF effs ?_
          simpa [generate_from_context, hload] using heq
      · rcases oart with _ | art
        · -- miss with no artifact: fall through to generation
          have := gac_spec pyExec agent editor interactive cp id_ ctx inputs
            cache leffs hle
          constructor
          · intro err cacheF effs heq
            refine this.1 err cacheF effs ?_
            simpa [generate_from_context, hload] using heq
          · intro v c cacheF effs heq
            refine this.2 v c cacheF effs ?_
            simpa [generate_from_context, hload] using heq
        · -- cache hit: returns the cached artifact over an unchanged cache
          constructor
          · intro err cacheF effs heq
            simp only [generate_from_context, hload] at heq
            simp at heq
          · intro v c cacheF effs heq
            simp only [generate_from_context, hload] at heq
            obtain ⟨hart, h2, h3⟩ : art = Artifact.compiled v c ∧
                cache = cacheF ∧ leffs = effs := by
              simpa [Prod.ext_iff] using heq
            rcases load_hit_is_cached pyExec cache cp ctx.name ctx.id hload
              with ⟨w, q, hw⟩
            rw [hw] at hart
            simp at hart

/-- The context used by the witness runs: target name `f`, no identifier,
no feedback. -/
def ctxW : Context :=
  Context.create none none none none false none false none none (some "f")
    none

/-- Witness for C5: a non-interactive run in which the only attempt fails
the error check and the operator answers `n` to `Regenerate code?` — the
give-up error leaves the empty cache unchanged and its trace (one agent
call) holds no write. -/
theorem C5_give_up_witness :
    ([] : Cache) = ([] : Cache) ∧
      ∀ p t, Eff.write p t ∉ [Eff.agentCall []] :=
  (C5_persist_only_after_validation c2PyExec (fun _ => "def broken(:") none
    false true none none ctxW [⟨[], false⟩] []).1 AutoErr.giveUp []
    [Eff.agentCall []] rfl

/-- C4: with an agent whose first attempt fails the error check and whose
second succeeds, non-interactively, with the operator answering yes to the
retry prompt: the agent is called exactly twice (the trace holds exactly two
agent calls), the second call's context carries exactly one `ErrorFeedback`
recording attempt 1's code and error message, and the only cache write is
the attempt-2 source. -/
theorem C4_retry_records_feedback_and_persists_second
    (pyExec : PyExec) (agent : AgentFn) (editor : Option EditorFn)
    (ctx : Context) (cp : List String) (nm c1 c2 e1 : String)
    (i1 i2 : IterInput) (rest : List IterInput) (cache0 : Cache)
    (hname : ctx.name = some nm) (hnm : nm.isEmpty = false)
    (hid : ctx.id = none) (hfb : ctx.feedbacks = [])
    (hmiss : cacheLookup cache0 (get_code_path_by_path cp nm) = none)
    (hagent1 : ∀ cx : Context, cx.feedbacks = [] → agent cx = c1)
    (hagent2 : ∀ cx : Context,
      cx.feedbacks = [Feedback.error c1 e1] → agent cx = c2)
    (herr1 : error_check pyExec c1 (some nm) =
      (false, some (Feedback.error c1 e1)))
    (herr2 : error_check pyExec c2 (some nm) = (true, none))
    (hretry : i1.retryAnswer = true) :
    ∃ v, generate_from_context pyExec agent editor false false (some cp) none
        ctx (i1 :: i2 :: rest) cache0 =
      (Except.ok (Artifact.compiled (some v) c2),
       cacheInsert cache0 ["structure", nm ++ ".py"] c2,
       [Eff.probe (get_code_path_by_path cp nm),
        Eff.agentCall [],
        Eff.agentCall [Feedback.error c1 e1],
        Eff.write ["structure", nm ++ ".py"] c2])
      ∧ v.callable = true := by
  rcases error_check_true_inv herr2 with ⟨v, hcomp, hcall⟩
  refine ⟨v, ?_, hcall⟩
  have hload : load_cached_code pyExec cache0 (some cp) ctx.name ctx.id =
      (Except.ok (false, none),
        [Eff.probe (get_code_path_by_path cp nm)]) := by
    simp [load_cached_code, resolve_cache_path, hname, hid, strTruthy, hnm,
      hmiss]
  have hloop : genLoop pyExec agent editor false ctx (i1 :: i2 :: rest) =
      (Except.ok c2,
        [Eff.agentCall [], Eff.agentCall [Feedback.error c1 e1]]) := by
    simp [genLoop, hagent1, hagent2, hname, hfb, herr1, herr2, hretry]
  have hsave : save_code cache0 c2 none (some nm) (some cp) =
      Except.ok (cacheInsert cache0 ["structure", nm ++ ".py"] c2,
        [Eff.write ["structure", nm ++ ".py"] c2]) := by
    simp [save_code, save_code_by_name, strTruthy, hnm]
  have hload2 : load_cached_code pyExec cache0 (some cp) (some nm) none =
      (Except.ok (false, none),
        [Eff.probe (get_code_path_by_path cp nm)]) := by
    rw [← hname, ← hid]; exact hload
  simp only [generate_from_context, hname, hid, hload2, Bool.false_eq_true,
    if_false, generate_after_cache, hloop, hsave, hcomp]
  simp

/-- The execution semantics for the C4 witness run: `GOOD` defines the
callable `f`, everything else raises `boom`. -/
def pyExec4 : PyExec := fun s =>
  if s = "GOOD" then Except.ok [("f", ⟨true, true⟩)]
  else Except.error "boom"

/-- The agent for the C4 witness run: `BAD` until it sees feedback. -/
def agent4 : AgentFn := fun cx =>
  if cx.feedbacks.isEmpty then "BAD" else "GOOD"

/-- Witness for C4 at concrete inputs: attempt 1 (`BAD`) fails, the operator
answers yes, attempt 2 (`GOOD`) passes, and exactly the claimed trace and
cache result. -/
theorem C4_retry_witness :
    ∃ v, generate_from_context pyExec4 agent4 none false false
        (some ["m.py"]) none ctxW [⟨[], true⟩, ⟨[], true⟩] [] =
      (Except.ok (Artifact.compiled (some v) "GOOD"),
       cacheInsert [] ["structure", "f" ++ ".py"] "GOOD",
       [Eff.probe (get_code_path_by_path ["m.py"] "f"),
        Eff.agentCall [],
        Eff.agentCall [Feedback.error "BAD" "boom"],
        Eff.write ["structure", "f" ++ ".py"] "GOOD"])
      ∧ v.callable = true :=
  C4_retry_records_feedback_and_persists_second pyExec4 agent4 none ctxW
    ["m.py"] "f" "BAD" "GOOD" "boom" ⟨[], true⟩ ⟨[], true⟩ [] []
    rfl rfl rfl rfl rfl
    (fun cx h => by simp [agent4, h])
    (fun cx h => by simp [agent4, h])
    rfl rfl rfl

/-- Inversion after the cache check: a `CompiledCode` result means the
returned source passed the error check and was persisted with `save_code`
into the returned cache. -/
theorem gac_compiled_inversion
    {pyExec : PyExec} {agent : AgentFn} {editor : Option EditorFn}
    {interactive : Bool} {cp : Option (List String)} {id_ : Option String}
    {ctx : Context} {inputs : List IterInput} {cache : Cache}
    {effs0 : List Eff} {v : Option PyValue} {c : String} {cacheF : Cache}
    {effs : List Eff}
    (h : generate_after_cache pyExec agent editor interactive cp id_ ctx
      inputs cache effs0 = (Except.ok (Artifact.compiled v c), cacheF,
        effs)) :
    error_check pyExec c ctx.name = (true, none) ∧
    ∃ e2, save_code cache c id_ ctx.name cp = Except.ok (cacheF, e2) := by
  rcases hloop : genLoop pyExec agent editor interactive ctx inputs with
    ⟨lr, leffs⟩
  rcases lr with eo | code
  · simp only [generate_after_cache, hloop] at h
    simp at h
  · have hec : error_check pyExec code ctx.name = (true, none) :=
      (genLoop_agent_only_and_validated pyExec agent editor interactive
        inputs ctx).2 code (by rw [hloop])
    rcases error_check_true_inv hec with ⟨v0, hcomp, _⟩
    rcases hsave : save_code cache code id_ ctx.name cp with m |
      ⟨cache', effs2⟩
    · simp only [generate_after_cache, hloop, hsave] at h
      simp at h
    · simp only [generate_after_cache, hloop, hsave, hcomp] at h
      obtain ⟨h1, h2, h3⟩ : Artifact.compiled (some v0) code =
          Artifact.compiled v c ∧ cache' = cacheF ∧
          effs0 ++ leffs ++ effs2 = effs := by
        simpa [Prod.ext_iff] using h
      obtain ⟨hv, hcode⟩ : some v0 = v ∧ code = c := by
        cases h1
        exact ⟨rfl, rfl⟩
      subst hcode
      exact ⟨hec, effs2, by rw [hsave, h2]⟩

/-- Inversion of `_generate_from_context` with `regenerate=False`: a
`CompiledCode` result cannot come from a cache hit, so it passed the error
check and was persisted. -/
theorem gfc_compiled_inversion
    {pyExec : PyExec} {agent : AgentFn} {editor : Option EditorFn}
    {interactive : Bool} {cp : Option (List String)} {id_ : Option String}
    {ctx : Context} {inputs : List IterInput} {cache : Cache}
    {v : Option PyValue} {c : String} {cacheF : Cache} {effs : List Eff}
    (h : generate_from_context pyExec agent editor interactive false cp id_
      ctx inputs cache = (Except.ok (Artifact.compiled v c), cacheF,
        effs)) :
    error_check pyExec c ctx.name = (true, none) ∧
    ∃ e2, save_code cache c id_ ctx.name cp = Except.ok (cacheF, e2) := by
  rcases hload : load_cached_code pyExec cache cp ctx.name ctx.id with
    ⟨lres, leffs⟩
  rcases lres with eo | ⟨b, oart⟩
  · simp only [generate_from_context, hload] at h
    simp at h
  · rcases b with _ | _
    · exact gac_compiled_inversion
        (by simpa [generate_from_context, hload] using h)
    · rcases oart with _ | art
      · exact gac_compiled_inversion
          (by simpa [generate_from_context, hload] using h)
      · simp only [generate_from_context, hload] at h
        obtain ⟨hart, h2, h3⟩ : art = Artifact.compiled v c ∧
            cache = cacheF ∧ leffs = effs := by
          simpa [Prod.ext_iff] using h
        rcases load_hit_is_cached pyExec cache cp ctx.name ctx.id hload with
          ⟨w, q, hw⟩
        rw [hw] at hart
        simp at hart

/-- After a source string passed the error check, loading it back through
`load_cached_code` from an identifier-keyed cache entry succeeds: the
extraction finds a callable (Python function objects being truthy, which is
the `htr` hypothesis) and wraps it in a `CachedCode` bearing the
identifier-keyed path. -/
theorem load_after_validated
    {pyExec : PyExec} {cache : Cache} (cp : Option (List String))
    {nm id_v : Option String} {c : String} (id : String)
    (hid : id.isEmpty = false) (hidv : id_v = some id)
    (hlookup : cacheLookup cache (idCachePath id) = some c)
    (hec : error_check pyExec c nm = (true, none))
    (htr : ∀ ns, pyExec c = Except.ok ns →
      ∀ q ∈ ns, q.2.callable = true → q.2.truthy = true) :
    ∃ w, load_cached_code pyExec cache cp nm id_v =
      (Except.ok (true, some (Artifact.cached w (idCachePath id))),
       [Eff.probe (idCachePath id), Eff.probe (idCachePath id),
        Eff.read (idCachePath id)]) := by
  subst hidv
  rcases error_check_true_inv hec with ⟨v0, hcomp, hcall⟩
  rcases hpy : pyExec c with e | ns
  · simp [compile_code, hpy] at hcomp
  · have htr' := htr ns hpy
    have hres : resolve_cache_path cache cp nm (some id) =
        (some (idCachePath id),
          [Eff.probe (idCachePath id), Eff.probe (idCachePath id)]) := by
      simp [resolve_cache_path, get_code_path_by_id, strTruthy, hid, hlookup]
    have hfirst : ∀ (r : String × PyValue),
        ns.find? (fun p => p.2.callable) = some r →
        ∃ w, load_cached_code pyExec cache cp nm (some id) =
          (Except.ok (true, some (Artifact.cached w (idCachePath id))),
           [Eff.probe (idCachePath id), Eff.probe (idCachePath id),
            Eff.read (idCachePath id)]) := by
      intro r hfr
      have hrcall : r.2.callable = true := by
        have := List.find?_some hfr
        simpa using this
      have hrtruthy : r.2.truthy = true :=
        htr' r (List.mem_of_find?_eq_some hfr) hrcall
      by_cases hnm : strTruthy nm = true
      · rcases nm with _ | n
        · simp [strTruthy] at hnm
        · have hget : nsGet ns n = some v0 := by
            simpa [compile_code, hpy] using hcomp
          obtain ⟨q, hfind, hq2⟩ : ∃ q,
              ns.find? (fun p => p.1 = n) = some q ∧ q.2 = v0 := by
            rcases hfq : ns.find? (fun p => p.1 = n) with _ | q
            · simp [nsGet, hfq] at hget
            · exact ⟨q, hfq, by simpa [nsGet, hfq] using hget⟩
          have htruthy : v0.truthy = true := by
            rw [← hq2]
            exact htr' q (List.mem_of_find?_eq_some hfind) (by rw [hq2]; exact hcall)
          refine ⟨v0, ?_⟩
          simp [load_cached_code, hres, hlookup, hpy, hnm, hget, pyTruthy,
            htruthy]
      · have hnm' : strTruthy nm = false := by simpa using hnm
        refine ⟨r.2, ?_⟩
        simp [load_cached_code, hres, hlookup, hpy, hnm', pyTruthy, hfr,
          hrtruthy]
    have hsome : ∃ q ∈ ns, q.2.callable = true := by
      rcases nm with _ | n
      · obtain ⟨q, hfind, hq2⟩ : ∃ q,
            ns.find? (fun p => p.2.callable) = some q ∧ q.2 = v0 := by
          rcases hfq : ns.find? (fun p => p.2.callable) with _ | q
          · simp [compile_code, hpy, hfq] at hcomp
          · exact ⟨q, hfq, by simpa [compile_code, hpy, hfq] using hcomp⟩
        exact ⟨q, List.mem_of_find?_eq_some hfind, by rw [hq2]; exact hcall⟩
      · have hget : nsGet ns n = some v0 := by
          simpa [compile_code, hpy] using hcomp
        obtain ⟨q, hfind, hq2⟩ : ∃ q,
            ns.find? (fun p => p.1 = n) = some q ∧ q.2 = v0 := by
          rcases hfq : ns.find? (fun p => p.1 = n) with _ | q
          · simp [nsGet, hfq] at hget
          · exact ⟨q, hfq, by simpa [nsGet, hfq] using hget⟩
        exact ⟨q, List.mem_of_find?_eq_some hfind, by rw [hq2]; exact hcall⟩
    rcases hfr : ns.find? (fun p => p.2.callable) with _ | r
    · rw [List.find?_eq_none] at hfr
      rcases hsome with ⟨q, hqmem, hqcall⟩
      exact absurd hqcall (by simpa using hfr q hqmem)
    · exact hfirst r hfr

/-- C3: after a first `regenerate=False` generation call with an explicit
identifier succeeds and persists its source, a second call with the same
identifier and `regenerate=False` (any agent, any operator input) returns a
`CachedCode` loaded from the very identifier-keyed file the first call
wrote, leaves the cache unchanged, and its whole effect trace is two probes
and a read — in particular it issues no generation request to the Agent. -/
theorem C3_identifier_cache_roundtrip
    (pyExec : PyExec) (agent1 agent2 : AgentFn)
    (editor1 editor2 : Option EditorFn) (interactive1 interactive2 : Bool)
    (cp1 cp2 : Option (List String)) (ctx1 ctx2 : Context)
    (inputs1 inputs2 : List IterInput) (cache0 cache1 : Cache) (id : String)
    (v : Option PyValue) (c : String) (effs1 : List Eff)
    (hid : id.isEmpty = false) (hid2 : ctx2.id = some id)
    (hname : ctx2.name = ctx1.name)
    (hrun : generate_from_context pyExec agent1 editor1 interactive1 false
      cp1 (some id) ctx1 inputs1 cache0 =
      (Except.ok (Artifact.compiled v c), cache1, effs1))
    (htr : ∀ ns, pyExec c = Except.ok ns →
      ∀ q ∈ ns, q.2.callable = true → q.2.truthy = true) :
    ∃ w, generate_from_context pyExec agent2 editor2 interactive2 false cp2
        (some id) ctx2 inputs2 cache1 =
      (Except.ok (Artifact.cached w (idCachePath id)), cache1,
        [Eff.probe (idCachePath id), Eff.probe (idCachePath id),
         Eff.read (idCachePath id)]) := by
  obtain ⟨hec, e2, hsave⟩ := gfc_compiled_inversion hrun
  have hc1 : cache1 = cacheInsert cache0 (idCachePath id) c := by
    simp [save_code, save_code_by_id, strTruthy, hid] at hsave
    exact hsave.1.symm
  have hlookup : cacheLookup cache1 (idCachePath id) = some c := by
    rw [hc1]
    simp [cacheLookup, cacheInsert]
  have hec2 : error_check pyExec c ctx2.name = (true, none) := by
    rw [hname]
    exact hec
  rcases load_after_validated cp2 id hid hid2 hlookup hec2 htr with
    ⟨w, hload2⟩
  refine ⟨w, ?_⟩
  simp [generate_from_context, hload2]

/-- The context of the C3 witness run: name `f`, identifier `k`. -/
def ctx3 : Context :=
  Context.create none none none none false none false none none (some "f")
    (some "k")

/-- Witness for C3 at concrete inputs: after a first call persisted `GOOD`
under `ids/k.py`, a second call with the same identifier — and an agent that
would only produce garbage — returns the cached artifact from `ids/k.py`
with no agent call in its trace. -/
theorem C3_roundtrip_witness :
    ∃ w, generate_from_context pyExec4 (fun _ => "NEVERCALLED") none false
        false none (some "k") ctx3 [] [(["ids", "k.py"], "GOOD")] =
      (Except.ok (Artifact.cached w (idCachePath "k")),
        [(["ids", "k.py"], "GOOD")],
        [Eff.probe (idCachePath "k"), Eff.probe (idCachePath "k"),
         Eff.read (idCachePath "k")]) :=
  C3_identifier_cache_roundtrip pyExec4 (fun _ => "GOOD")
    (fun _ => "NEVERCALLED") none none false false none none ctx3 ctx3
    [⟨[], true⟩] [] [] [(["ids", "k.py"], "GOOD")] "k"
    (some ⟨true, true⟩) "GOOD"
    [Eff.probe (idCachePath "k"), Eff.agentCall [],
     Eff.write (idCachePath "k") "GOOD"]
    rfl rfl rfl rfl
    (by intro ns h; simp [pyExec4] at h; subst h; decide)

/-! ### Substring preservation under `str.strip()` -/

/-- `isPrefixOf` ignores a shared prefix. -/
theorem isPrefixOf_append_same {α} [BEq α] [LawfulBEq α] :
    ∀ (a b c : List α), (a ++ b).isPrefixOf (a ++ c) = b.isPrefixOf c := by
  intro a
  induction a with
  | nil => intro b c; rfl
  | cons x xs ih => intro b c; simp [List.isPrefixOf, ih]

/-- `dropWhile` never lengthens a list. -/
theorem length_dropWhile_le_ac {α} (p : α → Bool) :
    ∀ l : List α, (l.dropWhile p).length ≤ l.length := by
  intro l
  induction l with
  | nil => simp
  | cons c tl ih =>
    rw [List.dropWhile_cons]
    split
    · exact le_trans ih (Nat.le_succ _)
    · simp

/-- A nonempty left-strip-invariant list starts with a non-space. -/
theorem head_not_space {c : Char} {u' : List Char}
    (h : (c :: u').dropWhile pyIsSpace = c :: u') : pyIsSpace c = false := by
  by_contra hc
  have hc' : pyIsSpace c = true := by simpa using hc
  rw [List.dropWhile_cons, if_pos hc'] at h
  have hlen := congrArg List.length h
  have hle := length_dropWhile_le_ac pyIsSpace u'
  simp at hlen
  omega

/-- A left-strip-invariant infix survives a left strip. -/
theorem infix_dropWhile_of_inv {u v : List Char} (h : u <:+: v)
    (hl : u.dropWhile pyIsSpace = u) : u <:+: v.dropWhile pyIsSpace := by
  rcases u with _ | ⟨c, u'⟩
  · exact List.nil_infix
  · have hc : pyIsSpace c = false := head_not_space hl
    rcases h with ⟨a, b, rfl⟩
    rw [List.append_assoc, List.dropWhile_append]
    split
    · rw [List.dropWhile_append]
      have hcu : List.dropWhile pyIsSpace (c :: u') = c :: u' := by
        rw [List.dropWhile_cons, if_neg (by simp [hc])]
      rw [hcu]
      simp only [List.isEmpty_cons, Bool.false_eq_true, if_false]
      exact ⟨[], b, by simp⟩
    · exact ⟨List.dropWhile pyIsSpace a, b, by simp⟩
  -- the second branch keeps the whole suffix, so the infix persists

/-- A strip-invariant infix survives `str.strip()`. -/
theorem infix_pyStrip {u v : List Char} (h : u <:+: v)
    (hl : u.dropWhile pyIsSpace = u)
    (hr : u.reverse.dropWhile pyIsSpace = u.reverse) :
    u <:+: pyStrip v := by
  have h1 : u <:+: lstripChars v := infix_dropWhile_of_inv h hl
  have h2 : u.reverse <:+: (lstripChars v).reverse :=
    List.reverse_infix.mpr h1
  have h3 : u.reverse <:+: (lstripChars v).reverse.dropWhile pyIsSpace :=
    infix_dropWhile_of_inv h2 hr
  have h4 : u.reverse.reverse <:+:
      ((lstripChars v).reverse.dropWhile pyIsSpace).reverse :=
    List.reverse_infix.mpr h3
  simpa [pyStrip, rstripChars] using h4

/-- An infix of `b` is an infix of `a ++ b`. -/
theorem infix_append_left {α} {u b : List α} (a : List α) (h : u <:+: b) :
    u <:+: a ++ b :=
  h.trans ⟨a, [], by simp⟩

/-! ### The feedback payloads inside the prompt -/

/-- An entry of the feedback block is an infix of the whole block body. -/
theorem entry_infix_concatMap {fb : Feedback} :
    ∀ {fbs : List Feedback}, fb ∈ fbs →
      (feedback_entry fb).data <:+: (concatMap feedback_entry fbs).data := by
  intro fbs hmem
  induction fbs with
  | nil => cases hmem
  | cons g rest ih =>
    rcases List.mem_cons.mp hmem with rfl | hmem'
    · rw [concatMap, String.data_append]
      exact ⟨[], (concatMap feedback_entry rest).data, by simp⟩
    · rw [concatMap, String.data_append]
      exact infix_append_left _ (ih hmem')

/-- A payload sitting inside its feedback entry sits inside the whole
feedback section. -/
theorem payload_in_section {fbs : List Feedback} {fb : Feedback}
    {payload : String} (hmem : fb ∈ fbs)
    (hpe : payload.data <:+: (feedback_entry fb).data) :
    payload.data <:+: (feedback_section fbs).data := by
  have hne : fbs ≠ [] := List.ne_nil_of_mem hmem
  have hempty : fbs.isEmpty = false := by
    rcases fbs with _ | _
    · exact absurd rfl hne
    · rfl
  rw [feedback_section, hempty]
  simp only [Bool.false_eq_true, if_false]
  rw [String.data_append]
  exact infix_append_left _ (hpe.trans (entry_infix_concatMap hmem))

/-- A strip-invariant payload of the feedback section appears in the final
(stripped) prompt. -/
theorem payload_in_generate_prompt {ctx : Context} {payload : String}
    (h : payload.data <:+: (feedback_section ctx.feedbacks).data)
    (hl : payload.data.dropWhile pyIsSpace = payload.data)
    (hr : payload.data.reverse.dropWhile pyIsSpace = payload.data.reverse) :
    payload.data <:+: (generate_prompt ctx).data := by
  have hbody : payload.data <:+: (prompt_body ctx).data := by
    rw [prompt_body, String.data_append]
    exact infix_append_left _ h
  rw [generate_prompt]
  exact infix_pyStrip hbody hl hr

/-- The previous code of a `HumanFeedback` sits inside its entry. -/
theorem prev_in_human_entry (p t : String) :
    p.data <:+: (feedback_entry (Feedback.human p t)).data :=
  ⟨"- Previous Code:\n".data, ("\n" ++ "- Human: " ++ t ++ "\n").data, by
    simp [feedback_entry, String.data_append]⟩

/-- The feedback text of a `HumanFeedback` sits inside its entry. -/
theorem text_in_human_entry (p t : String) :
    t.data <:+: (feedback_entry (Feedback.human p t)).data :=
  ⟨("- Previous Code:\n" ++ p ++ "\n" ++ "- Human: ").data, "\n".data, by
    simp [feedback_entry, String.data_append]⟩

/-- The error message of an `ErrorFeedback` sits inside its entry. -/
theorem message_in_error_entry (p e : String) :
    e.data <:+: (feedback_entry (Feedback.error p e)).data :=
  ⟨"- Error: ".data, "\n".data, by
    simp [feedback_entry, String.data_append]⟩

/-! ### The regex-engine translation refines the fenced-block contract -/

/-- The regex engine's opener match agrees with the whole-prefix opener
test, consuming the same number of characters. -/
theorem fenceOpen_eq_isOpener (cs : List Char) :
    fenceOpen cs = (isOpener cs).map (fun k => cs.drop k) := by
  by_cases h3 : ("```".data).isPrefixOf cs = true
  · obtain ⟨rest, rfl⟩ : ∃ rest, cs = "```".data ++ rest := by
      rcases List.isPrefixOf_iff_prefix.mp h3 with ⟨t, ht⟩
      exact ⟨t, ht.symm⟩
    have e10 : ("```python\n".data).isPrefixOf ("```".data ++ rest) =
        ("python\n".data).isPrefixOf rest := by
      rw [show "```python\n".data = "```".data ++ "python\n".data from rfl,
        isPrefixOf_append_same]
    have e4 : ("```\n".data).isPrefixOf ("```".data ++ rest) =
        ("\n".data).isPrefixOf rest := by
      rw [show "```\n".data = "```".data ++ "\n".data from rfl,
        isPrefixOf_append_same]
    simp only [fenceOpen, isOpener, h3, if_true, e10, e4]
    have hd3 : ("```".data ++ rest).drop 3 = rest := rfl
    rw [hd3]
    by_cases h6 : ("python".data).isPrefixOf rest = true
    · obtain ⟨rest2, rfl⟩ : ∃ rest2, rest = "python".data ++ rest2 := by
        rcases List.isPrefixOf_iff_prefix.mp h6 with ⟨t, ht⟩
        exact ⟨t, ht.symm⟩
      have e7 : ("python\n".data).isPrefixOf ("python".data ++ rest2) =
          ("\n".data).isPrefixOf rest2 := by
        rw [show "python\n".data = "python".data ++ "\n".data from rfl,
          isPrefixOf_append_same]
      have e8 : ("\n".data).isPrefixOf ("python".data ++ rest2) = false := rfl
      have hd6 : ("python".data ++ rest2).drop 6 = rest2 := rfl
      simp only [h6, if_true, e7, e8, hd6]
      by_cases h9 : ("\n".data).isPrefixOf rest2 = true
      · obtain ⟨rest3, rfl⟩ : ∃ rest3, rest2 = "\n".data ++ rest3 := by
          rcases List.isPrefixOf_iff_prefix.mp h9 with ⟨t, ht⟩
          exact ⟨t, ht.symm⟩
        simp only [h9, if_true, Option.map_some']
        rfl
      · simp only [h9, Bool.false_eq_true, if_false, Option.map_none']
    · simp only [h6, Bool.false_eq_true, if_false]
      by_cases h9 : ("\n".data).isPrefixOf rest = true
      · obtain ⟨rest3, rfl⟩ : ∃ rest3, rest = "\n".data ++ rest3 := by
          rcases List.isPrefixOf_iff_prefix.mp h9 with ⟨t, ht⟩
          exact ⟨t, ht.symm⟩
        have e11 : ("python\n".data).isPrefixOf ("\n".data ++ rest3) =
            false := rfl
        simp only [h9, e11, Bool.false_eq_true, if_false, if_true,
          Option.map_some']
        rfl
      · have e12 : ("python\n".data).isPrefixOf rest = false := by
          rcases hpn : ("python\n".data).isPrefixOf rest with _ | _
          · rfl
          · exfalso
            rcases List.isPrefixOf_iff_prefix.mp hpn with ⟨t, ht⟩
            have : ("python".data).isPrefixOf rest = true := by
              rw [← ht,
                show "python\n".data = "python".data ++ "\n".data from rfl]
              have := isPrefixOf_append_same "python".data []
                ("\n".data ++ t)
              simpa [List.append_assoc] using this
            exact absurd this (by simpa using h6)
        simp only [h9, e12, Bool.false_eq_true, if_false, Option.map_none']
  · have h3' : ("```".data).isPrefixOf cs = false := by
      rcases hx : ("```".data).isPrefixOf cs with _ | _
      · rfl
      · exact absurd hx h3
    have e10 : ("```python\n".data).isPrefixOf cs = false := by
      rcases hx : ("```python\n".data).isPrefixOf cs with _ | _
      · rfl
      · exfalso
        rcases List.isPrefixOf_iff_prefix.mp hx with ⟨t, ht⟩
        have : ("```".data).isPrefixOf cs = true := by
          rw [← ht, show "```python\n".data = "```".data ++ "python\n".data
            from rfl]
          have := isPrefixOf_append_same "```".data []
            ("python\n".data ++ t)
          simpa [List.append_assoc] using this
        exact absurd this h3
    have e4 : ("```\n".data).isPrefixOf cs = false := by
      rcases hx : ("```\n".data).isPrefixOf cs with _ | _
      · rfl
      · exfalso
        rcases List.isPrefixOf_iff_prefix.mp hx with ⟨t, ht⟩
        have : ("```".data).isPrefixOf cs = true := by
          rw [← ht, show "```\n".data = "```".data ++ "\n".data from rfl]
          have := isPrefixOf_append_same "```".data [] ("\n".data ++ t)
          simpa [List.append_assoc] using this
        exact absurd this h3
    simp [fenceOpen, isOpener, h3', e10, e4]

/-- The lazy regex capture and the take-until-close body differ at most by a
final newline (the `$`-before-trailing-newline behaviour of `re`). -/
theorem lazy_take_until : ∀ rest : List Char,
    takeUntilClose rest = lazyCapture rest ∨
    takeUntilClose rest = lazyCapture rest ++ ['\n'] := by
  intro rest
  induction rest with
  | nil => left; rfl
  | cons c cs ih =>
    by_cases hf : ("```".data).isPrefixOf (c :: cs) = true
    · left
      simp [takeUntilClose, lazyCapture, hf]
    · have hf' : ("```".data).isPrefixOf (c :: cs) = false := by
        rcases hx : ("```".data).isPrefixOf (c :: cs) with _ | _
        · rfl
        · exact absurd hx hf
      by_cases hnl : c :: cs = ['\n']
      · right
        injection hnl with h1 h2
        subst h1
        subst h2
        simp [takeUntilClose, lazyCapture, hf']
      · rcases ih with h | h
        · left
          simp [takeUntilClose, lazyCapture, hf', hnl, h]
        · right
          simp [takeUntilClose, lazyCapture, hf', hnl, h]

/-- `str.strip()` absorbs a trailing newline. -/
theorem pyStrip_append_newline (xs : List Char) :
    pyStrip (xs ++ ['\n']) = pyStrip xs := by
  rw [pyStrip, pyStrip, lstripChars, lstripChars, List.dropWhile_append]
  split
  · rename_i hxs
    have hnil : List.dropWhile pyIsSpace xs = [] := by
      simpa [List.isEmpty_iff] using hxs
    have : List.dropWhile pyIsSpace ['\n'] = [] := rfl
    rw [this, hnil]
  · rename_i hxs
    rw [rstripChars, rstripChars, List.reverse_append]
    have : List.dropWhile pyIsSpace
        (['\n'].reverse ++ (List.dropWhile pyIsSpace xs).reverse) =
        List.dropWhile pyIsSpace ((List.dropWhile pyIsSpace xs).reverse) := by
      rw [show (['\n'] : List Char).reverse = ['\n'] from rfl]
      rw [show (['\n'] : List Char) ++
          (List.dropWhile pyIsSpace xs).reverse =
          '\n' :: (List.dropWhile pyIsSpace xs).reverse from rfl]
      rw [List.dropWhile_cons, if_pos (by decide)]
    rw [this]

/-- The scan of the translated regex and the spec-level scan agree up to the
final strip. -/
theorem findFence_spec : ∀ cs : List Char,
    (findFence cs).map pyStrip = (firstFencedBlockAux cs).map pyStrip := by
  intro cs
  induction cs with
  | nil => rfl
  | cons c tl ih =>
    rw [findFence, firstFencedBlockAux, fenceOpen_eq_isOpener]
    rcases ho : isOpener (c :: tl) with _ | k
    · simpa using ih
    · simp only [Option.map_some']
      rcases lazy_take_until ((c :: tl).drop k) with h | h
      · rw [h]
      · rw [h, pyStrip_append_newline]

/-- The translated extraction step meets the spec-level contract: the first
fenced block, stripped, with fallback to the stripped raw response. -/
theorem extract_code_spec (content : String) :
    extract_code content = String.mk (pyStrip
      (((firstFencedBlockSpec content).getD content).data)) := by
  rw [extract_code, firstFencedBlockSpec]
  have h := findFence_spec content.data
  rcases hf : findFence content.data with _ | cap <;> rw [hf] at h <;>
    rcases ha : firstFencedBlockAux content.data with _ | b <;> rw [ha] at h
  · simp [ha]
  · simp at h
  · simp at h
  · simp only [Option.map_some', Option.some.injEq] at h
    simp only [ha, Option.map_some', Option.getD_some]
    rw [h]

/-- A context carrying a single `ErrorFeedback`, for the C9 counterexample:
previous code `PREVCODE`, error message `BOOM`. -/
def ctxE : Context :=
  { ctxW with feedbacks := [Feedback.error "PREVCODE" "BOOM"] }

/-- C9 counterexample: the claim as stated is false — the context carries an
`ErrorFeedback` whose previous code `PREVCODE` does NOT appear anywhere in
the prompt `generate_prompt` builds (the `ErrorFeedback` match arm renders
only the error message). -/
theorem C9_error_prev_code_not_in_prompt :
    Feedback.error "PREVCODE" "BOOM" ∈ ctxE.feedbacks ∧
      ¬ ("PREVCODE".data <:+: (generate_prompt ctxE).data) :=
  ⟨by decide, by decide⟩

/-- C9 (amended): the prompt incorporates the accumulated feedback history —
for each `HumanFeedback` entry both its previous code and its feedback text
appear in the prompt, and for each `ErrorFeedback` entry its error message
appears (its previous code is not rendered); payloads are assumed free of
leading/trailing whitespace so that the final `strip()` cannot clip them.
And the code extracted from the model's free-text response is the content of
the first fenced code block, stripped, falling back to the stripped raw
response when no fence is found. -/
theorem C9_prompt_feedback_and_extraction :
    (∀ (ctx : Context) (p t : String),
        Feedback.human p t ∈ ctx.feedbacks →
        p.data.dropWhile pyIsSpace = p.data →
        p.data.reverse.dropWhile pyIsSpace = p.data.reverse →
        t.data.dropWhile pyIsSpace = t.data →
        t.data.reverse.dropWhile pyIsSpace = t.data.reverse →
        p.data <:+: (generate_prompt ctx).data ∧
          t.data <:+: (generate_prompt ctx).data)
    ∧ (∀ (ctx : Context) (p e : String),
        Feedback.error p e ∈ ctx.feedbacks →
        e.data.dropWhile pyIsSpace = e.data →
        e.data.reverse.dropWhile pyIsSpace = e.data.reverse →
        e.data <:+: (generate_prompt ctx).data)
    ∧ (∀ content : String, extract_code content = String.mk (pyStrip
        (((firstFencedBlockSpec content).getD content).data))) := by
  refine ⟨?_, ?_, extract_code_spec⟩
  · intro ctx p t hmem hpl hpr htl htr
    exact ⟨payload_in_generate_prompt
        (payload_in_section hmem (prev_in_human_entry p t)) hpl hpr,
      payload_in_generate_prompt
        (payload_in_section hmem (text_in_human_entry p t)) htl htr⟩
  · intro ctx p e hmem hel her
    exact payload_in_generate_prompt
      (payload_in_section hmem (message_in_error_entry p e)) hel her

/-- A context carrying a single `HumanFeedback`, for the C9 witness. -/
def ctxH : Context :=
  { ctxW with feedbacks := [Feedback.human "PC" "FIXIT"] }

/-- Witness for C9 at concrete inputs: the human feedback's previous code
and text appear in the prompt, the error feedback's message appears, and a
concrete fenced response extracts to its block content. -/
theorem C9_prompt_witness :
    ("PC".data <:+: (generate_prompt ctxH).data ∧
      "FIXIT".data <:+: (generate_prompt ctxH).data)
    ∧ "BOOM".data <:+: (generate_prompt ctxE).data
    ∧ extract_code "see ```python\nrun()\n``` there" = String.mk (pyStrip
        (((firstFencedBlockSpec "see ```python\nrun()\n``` there").getD
          "see ```python\nrun()\n``` there").data)) :=
  ⟨C9_prompt_feedback_and_extraction.1 ctxH "PC" "FIXIT" (by decide) rfl rfl
     rfl rfl,
   C9_prompt_feedback_and_extraction.2.1 ctxE "PREVCODE" "BOOM" (by decide)
     rfl rfl,
   C9_prompt_feedback_and_extraction.2.2 "see ```python\nrun()\n``` there"⟩
